import Mathlib

/-!
Compatibility processor: a verification development.

Shallow embedding of `main.go` (package `main`): the scorer
`getCompatibilityPercentBetween` / `percentage`, the scan loop
`getCompatibility`, the chunked writer `setCompatibility` and the page query of
`findInterestedIds`.

Conventions of the embedding.

* Go `int` values are `Int` (counters that only count up from zero are `Nat`
  where they are used as indices). The only arithmetic is `100 * c` with
  `c ≤ len(map)` and `i + 10` with `i < len(slice)`; a length is below `2^48`
  on every platform Go supports, so no 64-bit operation can wrap.
* `float64` values are rationals. The only floats the program makes are
  conversions of integers in `[0, 100]`, which `float64` holds exactly.
* A run-time panic (integer division by zero, index out of range) is a
  `Fault`; loops that Go leaves unbounded take a fuel argument.
-/

namespace Compat

/-! ## Data model -/

/-- Row of `user_answers`, in the order the rows are scanned. -/
structure userAnswer where
  user_id : String
  answer_id : String
  question_id : String
  deriving DecidableEq, Repr

/-- Page entry of the candidate search. -/
structure userInterest where
  id : String
  created_at : Int
  deriving DecidableEq, Repr

/-- One scored pair. -/
structure userCompatability where
  userOneId : String
  userTwoId : String
  percentage : Int
  deriving DecidableEq, Repr

/-- Go run-time panics the embedded code could raise. -/
inductive Fault where
  | divideByZero
  | indexOutOfRange
  deriving DecidableEq, Repr

deriving instance DecidableEq for Except

/-- A Go `map[string]string`: a finite association with unique keys. -/
abbrev GoMap := AList (fun _ : String => String)

/-- Go `m[k]`: the stored value, and the zero value `""` for an absent key. -/
def GoMap.index (m : GoMap) (k : String) : String :=
  (m.lookup k).getD ""

/-- Go `len(m)`. -/
def GoMap.len (m : GoMap) : Int :=
  (m.entries.length : Int)

/-- Go `m[k] = v` as a new map value. -/
def GoMap.set (m : GoMap) (k v : String) : GoMap :=
  m.insert k v

/-- Build a map by assigning the pairs left to right, as a sequence of
`m[k] = v` statements does. -/
def GoMap.ofPairs (kvs : List (String × String)) : GoMap :=
  kvs.foldl (fun m kv => m.set kv.1 kv.2) ∅

/-! ## Compatibility scorer (main.go 185-208) -/

/-- Function `percentage`: `float64(100 * count / total)`. The quotient is the integer
quotient of two `int`s (truncated), converted afterwards. -/
def percentage (count total : Int) : Except Fault ℚ :=
  if total = 0 then .error .divideByZero
  else .ok (((100 * count).tdiv total : Int) : ℚ)

/-- The counting loop of `getCompatibilityPercentBetween` (lines 186-191): one
pass over the entries of `userOneAnswers`. The count does not depend on the
order in which the entries are visited. -/
def countMatches (userOneAnswers userTwoAnswers : GoMap) : Int :=
  userOneAnswers.entries.foldl
    (fun c e => if e.2 = userTwoAnswers.index e.1 then c + 1 else c) 0

/-- Function `getCompatibilityPercentBetween` (lines 185-204). -/
def getCompatibilityPercentBetween (userOneAnswers userTwoAnswers : GoMap) :
    Except Fault Int :=
  let c := countMatches userOneAnswers userTwoAnswers
  let computed : Except Fault Int :=
    if c = 0 then .ok 0
    else (percentage c userOneAnswers.len).map (fun f => ⌈f⌉)
  computed.map (fun percentMatch => if percentMatch > 100 then 100 else percentMatch)

/-- Number of entries of `A` whose answer equals what `B[question]` reads. -/
def matchCount (A B : GoMap) : Nat :=
  A.entries.countP (fun e => decide (e.2 = B.index e.1))

/-- Subject with three answered questions. -/
def threeAnswers : GoMap :=
  GoMap.ofPairs [("q1", "a1"), ("q2", "a2"), ("q3", "a3")]

/-- Candidate agreeing with `threeAnswers` on `q1` only. -/
def oneAgreeing : GoMap :=
  GoMap.ofPairs [("q1", "a1")]

/-- Subject whose single stored answer identifier is the empty string. -/
def blankAnswer : GoMap :=
  GoMap.ofPairs [("q1", "")]

/-! ## Storage interface

The pgx connection is an external collaborator. Each field of `Conn` answers
one of the statements the program issues; the result is what the calling
function returns for it, the call taken together with the loop over its rows
(a failed query and a failed row scan both make the calling function return
the error). The `Nat` argument of a statement that is issued in a loop is the
number of times the statement was issued before in the run, so the answers
may change from one call to the next in any way.

A query can also fail while its rows are streamed: `rows.Next()` then returns
`false` and the error is held by `rows.Err()`. The three functions that loop
over rows never read `rows.Err()`; `PgConn` below is the connection with that
level of detail, and `PgConn.helpers` is the `Conn` the functions make of
it. -/

/-- Error value of a failed pgx call. -/
abbrev PgError := String

/-- The page statement of `findInterestedIds` (lines 249-252):
`SELECT id, created_at FROM users WHERE interested_in = '%s' AND gender = '%s'
%s ORDER BY created_at DESC LIMIT 100`. The fields are the three values
interpolated, named after the place they fill: the value compared with column
`interested_in`, the value compared with column `gender`, and the optional
`AND created_at < %d`. The statement reads so when the two values are free
of the quote character (`quoteFree`); claims about what the statement selects
carry that hypothesis. -/
structure UsersQuery where
  interested_in : String
  gender : String
  whereCreatedAt : Option Int
  deriving DecidableEq, Repr

/-- The connection `conn`. -/
structure Conn where
  /-- Statement `SELECT gender, interested_in FROM users WHERE id = '%s'`, scanned. -/
  selectUserInfo : String → Except PgError (String × String)
  /-- Statement `SELECT * FROM user_answers WHERE user_id = '%s'`, rows scanned. -/
  selectAnswersOf : String → Except PgError (List userAnswer)
  /-- The page statement, rows scanned. -/
  selectUsers : Nat → UsersQuery → Except PgError (List userInterest)
  /-- Statement `SELECT * FROM user_answers WHERE user_id IN (%s)`, rows scanned. -/
  selectAnswersIn : Nat → List String → Except PgError (List userAnswer)
  /-- Statement `INSERT INTO user_compatibilities (user_one_id, user_two_id, percent)
  VALUES %s` with one `('%s', '%s', %d)` per row, in the order given. -/
  insertCompatibilities : Nat → List userCompatability → Except PgError Unit

/-- What `conn.Query` hands back when it returns no error: the rows that
`rows.Next()` delivers, each with the outcome of its `rows.Scan`, and the
error `rows.Err()` holds once `rows.Next()` has returned `false` (`none` when
the rows were read to their end). -/
structure Rows (α : Type) where
  scanned : List (Except PgError α)
  err : Option PgError

/-- The row loop shared by `findAllAnswersForUsers`, `findInterestedIds` and
`findAllAnswersForUser`: `for rows.Next() { err := rows.Scan(..); if err != nil
{ return empty, err }; result = append(result, i) }`, then `return result,
nil`. -/
def scanRows {α : Type} : List (Except PgError α) → List α → Except PgError (List α)
  | [], result => .ok result
  | .error err :: _, _ => .error err
  | .ok i :: rest, result => scanRows rest (result ++ [i])

/-- What a function looping over rows returns for a query: the error of
`conn.Query`, or the outcome of the row loop. The field `err` of the rows is
not consulted. -/
def readRows {α : Type} (q : Except PgError (Rows α)) : Except PgError (List α) :=
  match q with
  | .error err => .error err
  | .ok rows => scanRows rows.scanned []

/-- The connection at the level of `Query`, `QueryRow` and `Exec`. -/
structure PgConn where
  queryUserInfo : String → Except PgError (String × String)
  queryAnswersOf : String → Except PgError (Rows userAnswer)
  queryUsers : Nat → UsersQuery → Except PgError (Rows userInterest)
  queryAnswersIn : Nat → List String → Except PgError (Rows userAnswer)
  execInsert : Nat → List userCompatability → Except PgError Unit

/-- The connection as the functions of `main.go` see it through their row
loops. -/
def PgConn.helpers (pg : PgConn) : Conn where
  selectUserInfo := pg.queryUserInfo
  selectAnswersOf := fun userId => readRows (pg.queryAnswersOf userId)
  selectUsers := fun nth q => readRows (pg.queryUsers nth q)
  selectAnswersIn := fun nth userIds => readRows (pg.queryAnswersIn nth userIds)
  insertCompatibilities := pg.execInsert

/-- The character that closes an SQL string literal. -/
def quoteChar : Char := Char.ofNat 39

/-- The value holds no quote character: interpolated between quotes it is one
SQL string literal, compared as a whole with the column. -/
def quoteFree (s : String) : Prop := quoteChar ∉ s.data

instance (s : String) : Decidable (quoteFree s) :=
  inferInstanceAs (Decidable (quoteChar ∉ s.data))

/-- The quote character as a string. -/
def quoteString : String := String.singleton quoteChar

/-- The line break of the statement text. -/
def lineBreak : String := String.singleton (Char.ofNat 10)

/-- The text `findInterestedIds` sends (lines 238-252): the two values are
interpolated between quotes, the cursor clause is present when
`createdAt > 0`. `UsersQuery` is its reading; for values free of the quote
character the text has no other (`findInterestedIdsText_inj`), with a quote
in a value it can be the text of another pair of values
(`findInterestedIdsText_collision`). -/
def findInterestedIdsText (gender interested_in : String) (createdAt : Int) : String :=
  let whereCreatedAt : String :=
    if createdAt > 0 then "AND created_at < " ++ toString createdAt else ""
  "SELECT id, created_at FROM users" ++ lineBreak
    ++ "      WHERE interested_in = " ++ quoteString ++ gender ++ quoteString
    ++ " AND gender = " ++ quoteString ++ interested_in ++ quoteString
    ++ " " ++ whereCreatedAt ++ lineBreak
    ++ "      ORDER BY created_at DESC" ++ lineBreak
    ++ "      LIMIT 100"

/-- An interest value holding a quote: `b`, a quote, ` AND gender = `, a
quote, `c`. -/
def quotedInterest : String :=
  String.mk ("b".data ++ quoteChar :: " AND gender = ".data ++ quoteChar :: "c".data)

/-- A gender value holding a quote: `a`, a quote, ` AND gender = `, a quote,
`b`. -/
def quotedGender : String :=
  String.mk ("a".data ++ quoteChar :: " AND gender = ".data ++ quoteChar :: "b".data)

/-- Function `getUserInfoById` (lines 293-304). -/
def getUserInfoById (userId : String) (conn : Conn) : Except PgError (String × String) :=
  conn.selectUserInfo userId

/-- Function `findAllAnswersForUser` (lines 271-291): later rows overwrite earlier ones
of the same question. -/
def findAllAnswersForUser (userId : String) (conn : Conn) : Except PgError GoMap :=
  match conn.selectAnswersOf userId with
  | .error err => .error err
  | .ok rows => .ok (rows.foldl (fun result i => result.set i.question_id i.answer_id) ∅)

/-- The statement `findInterestedIds` builds (lines 238-252): the first
argument fills the `interested_in` comparison, the second the `gender`
comparison, and the bound is present when `createdAt > 0`. -/
def findInterestedIdsQuery (gender interested_in : String) (createdAt : Int) : UsersQuery :=
  { interested_in := gender
    gender := interested_in
    whereCreatedAt := if createdAt > 0 then some createdAt else none }

/-- Function `findInterestedIds` (lines 237-269); `nth` counts the earlier page
requests of the run. -/
def findInterestedIds (gender interested_in : String) (createdAt : Int) (nth : Nat)
    (conn : Conn) : Except PgError (List userInterest) :=
  conn.selectUsers nth (findInterestedIdsQuery gender interested_in createdAt)

/-- Function `findAllAnswersForUsers` (lines 210-235); `nth` counts the earlier bulk
fetches of the run. -/
def findAllAnswersForUsers (userIds : List String) (nth : Nat) (conn : Conn) :
    Except PgError (List userAnswer) :=
  conn.selectAnswersIn nth userIds

/-! ## Matching engine (main.go 121-183) -/

/-- What a run of `getCompatibility` does, in order: the storage calls with
their results, each score computed, each append to `compatibilities`. -/
inductive Event where
  | getUserInfoById (userId : String) (res : Except PgError (String × String))
  | findAllAnswersForUser (userId : String) (res : Except PgError GoMap)
  | findInterestedIds (gender interested_in : String) (createdAt : Int)
      (res : Except PgError (List userInterest))
  | findAllAnswersForUsers (userIds : List String) (res : Except PgError (List userAnswer))
  | score (iUserId : String) (percentMatch : Int)
  | append (c : userCompatability)
  deriving DecidableEq

/-- The event is a storage call that returned an error. -/
def Event.failed : Event → Bool
  | .getUserInfoById _ (.error _) => true
  | .findAllAnswersForUser _ (.error _) => true
  | .findInterestedIds _ _ _ (.error _) => true
  | .findAllAnswersForUsers _ (.error _) => true
  | _ => false

/-- How a run ends. -/
inductive Outcome where
  | returned (compatibilities : List userCompatability)
  | panicked (f : Fault)
  | outOfFuel
  deriving DecidableEq

/-- A run: its events and its end. -/
structure Run where
  trace : List Event
  outcome : Outcome
  deriving DecidableEq

/-- Lines 159-166: the map built for `iUserId` from the records of the page. -/
def answersOfUser (usersAnswers : List userAnswer) (iUserId : String) : GoMap :=
  usersAnswers.foldl
    (fun userAnswers ua =>
      if ua.user_id ≠ iUserId then userAnswers
      else userAnswers.set ua.question_id ua.answer_id) ∅

/-- How the loop over `userIds` (lines 158-177) leaves. -/
inductive Flow where
  | fallThrough (foundMatches : Int) (compatibilities : List userCompatability)
  | ret (compatibilities : List userCompatability)
  | panic (f : Fault)
  deriving DecidableEq

/-- The loop over `userIds` (lines 158-177), with the events it produces. -/
def scoreUsers (userId : String) (userOneAnswers : GoMap) (usersAnswers : List userAnswer) :
    List String → Int → List userCompatability → List Event × Flow
  | [], foundMatches, compatibilities => ([], .fallThrough foundMatches compatibilities)
  | iUserId :: rest, foundMatches, compatibilities =>
    match getCompatibilityPercentBetween userOneAnswers (answersOfUser usersAnswers iUserId) with
    | .error f => ([], .panic f)
    | .ok percentMatch =>
      if percentMatch ≥ 40 then
        let c : userCompatability := ⟨userId, iUserId, percentMatch⟩
        if foundMatches + 1 ≥ 100 then
          ([.score iUserId percentMatch, .append c], .ret (compatibilities ++ [c]))
        else
          let r := scoreUsers userId userOneAnswers usersAnswers rest (foundMatches + 1)
            (compatibilities ++ [c])
          (.score iUserId percentMatch :: .append c :: r.1, r.2)
      else
        let r := scoreUsers userId userOneAnswers usersAnswers rest foundMatches compatibilities
        (.score iUserId percentMatch :: r.1, r.2)

/-- The `for` loop of lines 137-180. Arguments after the fuel: the number of
page requests made so far, `lastCreatedAt`, `foundMatches`, `compatibilities`. -/
def scanLoop (userId gender interested_in : String) (userOneAnswers : GoMap) (conn : Conn) :
    Nat → Nat → Int → Int → List userCompatability → Run
  | 0, _, _, _, _ => ⟨[], .outOfFuel⟩
  | fuel + 1, nth, lastCreatedAt, foundMatches, compatibilities =>
    let res := findInterestedIds gender interested_in lastCreatedAt nth conn
    let e1 := Event.findInterestedIds gender interested_in lastCreatedAt res
    match res with
    | .error _ => ⟨[e1], .returned []⟩
    | .ok users =>
      if 0 ≥ users.length then ⟨[e1], .returned compatibilities⟩
      else
        let userIds := users.map (fun e => e.id)
        let res2 := findAllAnswersForUsers userIds nth conn
        let e2 := Event.findAllAnswersForUsers userIds res2
        match res2 with
        | .error _ => ⟨[e1, e2], .returned []⟩
        | .ok usersAnswers =>
          match scoreUsers userId userOneAnswers usersAnswers userIds foundMatches
              compatibilities with
          | (tr, .ret cs) => ⟨e1 :: e2 :: tr, .returned cs⟩
          | (tr, .panic f) => ⟨e1 :: e2 :: tr, .panicked f⟩
          | (tr, .fallThrough foundMatches1 compatibilities1) =>
            match users[users.length - 1]? with
            | none => ⟨e1 :: e2 :: tr, .panicked .indexOutOfRange⟩
            | some last =>
              let r := scanLoop userId gender interested_in userOneAnswers conn fuel (nth + 1)
                last.created_at foundMatches1 compatibilities1
              ⟨e1 :: e2 :: tr ++ r.trace, r.outcome⟩

/-- Function `getCompatibility` (lines 121-183), run with the given fuel for the scan
loop. -/
def getCompatibility (fuel : Nat) (userId : String) (conn : Conn) : Run :=
  let res := getUserInfoById userId conn
  let e1 := Event.getUserInfoById userId res
  match res with
  | .error _ => ⟨[e1], .returned []⟩
  | .ok (gender, interested_in) =>
    let res2 := findAllAnswersForUser userId conn
    let e2 := Event.findAllAnswersForUser userId res2
    match res2 with
    | .error _ => ⟨[e1, e2], .returned []⟩
    | .ok userOneAnswers =>
      let r := scanLoop userId gender interested_in userOneAnswers conn fuel 0 (-1) 0 []
      ⟨e1 :: e2 :: r.trace, r.outcome⟩

/-- The scores computed in a run, in order. -/
def scoredOf (tr : List Event) : List (String × Int) :=
  tr.filterMap (fun e => match e with
    | .score iUserId percentMatch => some (iUserId, percentMatch)
    | _ => none)

/-- The appends to `compatibilities` made in a run, in order. -/
def appendedOf (tr : List Event) : List userCompatability :=
  tr.filterMap (fun e => match e with
    | .append c => some c
    | _ => none)

/-- The value `getCompatibilityPercentBetween` returns, as a number. -/
def scoreValue (A B : GoMap) : Int :=
  ((100 * matchCount A B / A.entries.length : Nat) : Int)

/-- The pairs a page contributes: its candidates in page order, each scored
against the subject with the map built from the page's records, kept when the
score is at least 40. -/
def qualifiers (userId : String) (userOneAnswers : GoMap) (usersAnswers : List userAnswer)
    (userIds : List String) : List userCompatability :=
  userIds.filterMap (fun iUserId =>
    let p := scoreValue userOneAnswers (answersOfUser usersAnswers iUserId)
    if p ≥ 40 then some ⟨userId, iUserId, p⟩ else none)

/-- The threshold test of line 169 applied to one computed score: the pair
appended for it, if any. -/
def keepScored (userId : String) (s : String × Int) : Option userCompatability :=
  if s.2 ≥ 40 then some ⟨userId, s.1, s.2⟩ else none

/-- The responses a candidate source gives to successive page requests: each
page with the records its bulk fetch returns. -/
abbrev Page := List userInterest × List userAnswer

/-- The value `lastCreatedAt` holds after a page was processed (line 179). -/
def cursorAfter (p : Page) (cur : Int) : Int :=
  match p.1.getLast? with
  | some last => last.created_at
  | none => cur

/-- The connection answers the page requests number `nth`, `nth + 1`, ... of a
run, the first of them carrying cursor `cur`, with the non-empty pages `ps`
and their records, without error. -/
def Serves (conn : Conn) (gender interested_in : String) : List Page → Nat → Int → Prop
  | [], _, _ => True
  | p :: ps, nth, cur =>
    p.1 ≠ [] ∧
    findInterestedIds gender interested_in cur nth conn = .ok p.1 ∧
    findAllAnswersForUsers (p.1.map fun e => e.id) nth conn = .ok p.2 ∧
    Serves conn gender interested_in ps (nth + 1) (cursorAfter p cur)

/-- The qualifying pairs of a sequence of pages, in page order. -/
def qualifiersOfPages (userId : String) (userOneAnswers : GoMap) : List Page → List userCompatability
  | [] => []
  | p :: ps =>
    qualifiers userId userOneAnswers p.2 (p.1.map fun e => e.id)
      ++ qualifiersOfPages userId userOneAnswers ps

/-- The connection serves the non-empty pages `ps` as in `Serves` and answers
the page request that follows them with an empty page. -/
def ServesThenEmpty (conn : Conn) (gender interested_in : String) : List Page → Nat → Int → Prop
  | [], nth, cur => findInterestedIds gender interested_in cur nth conn = .ok []
  | p :: ps, nth, cur =>
    p.1 ≠ [] ∧
    findInterestedIds gender interested_in cur nth conn = .ok p.1 ∧
    findAllAnswersForUsers (p.1.map fun e => e.id) nth conn = .ok p.2 ∧
    ServesThenEmpty conn gender interested_in ps (nth + 1) (cursorAfter p cur)

/-- The page requests of a run, in order: the cursor each carried and what it
returned. -/
def pageRequests (tr : List Event) : List (Int × Except PgError (List userInterest)) :=
  tr.filterMap (fun e => match e with
    | .findInterestedIds _ _ createdAt res => some (createdAt, res)
    | _ => none)

/-- The bulk answer fetches of a run, in order: the identifiers each asked
for. -/
def bulkFetches (tr : List Event) : List (List String) :=
  tr.filterMap (fun e => match e with
    | .findAllAnswersForUsers userIds _ => some userIds
    | _ => none)

/-- A sequence of page requests is chained from `cur`: the first carries `cur`,
and every request that has a successor returned a page whose last entry has
the creation timestamp the successor carries. -/
def CursorChain : Int → List (Int × Except PgError (List userInterest)) → Prop
  | _, [] => True
  | cur, (c, r) :: rest =>
    c = cur ∧
    (rest = [] ∨
      ∃ users last, r = .ok users ∧ users.getLast? = some last ∧
        CursorChain last.created_at rest)

/-- The scorer's results for the candidates of a sequence of pages: every
candidate of every page, in page order, with what
`getCompatibilityPercentBetween` returns for the subject's map and the map
built for the candidate from the records of its page. -/
def candidateScores (userOneAnswers : GoMap) : List Page → List (String × Except Fault Int)
  | [] => []
  | p :: ps =>
    (p.1.map fun e =>
        (e.id, getCompatibilityPercentBetween userOneAnswers (answersOfUser p.2 e.id)))
      ++ candidateScores userOneAnswers ps

/-! ## Result writer (main.go 81-119) -/

/-- Why an embedded loop stopped without a value. -/
inductive Stop where
  | fault (f : Fault)
  | outOfFuel
  deriving DecidableEq, Repr

/-- The copy loop of lines 95-98: `for start < end { rc = append(rc,
compatibilities[start]); start++ }`. -/
def copyLoop (compatibilities : List userCompatability) :
    Nat → Nat → Nat → List userCompatability → Except Stop (List userCompatability)
  | 0, start, stop, rc => if start < stop then .error .outOfFuel else .ok rc
  | fuel + 1, start, stop, rc =>
    if start < stop then
      match compatibilities[start]? with
      | none => .error (.fault .indexOutOfRange)
      | some c => copyLoop compatibilities fuel (start + 1) stop (rc ++ [c])
    else .ok rc

/-- The chunking loop of lines 88-101: `for i := 0; i < len; i += chunkSize`.
The first argument is the fuel given to every copy loop. -/
def chunkLoop (compatibilities : List userCompatability) (inner : Nat) :
    Nat → Nat → List (List userCompatability) → Except Stop (List (List userCompatability))
  | 0, i, chunks => if i < compatibilities.length then .error .outOfFuel else .ok chunks
  | fuel + 1, i, chunks =>
    if i < compatibilities.length then
      let start := i
      let stop := if start + 10 ≥ compatibilities.length then compatibilities.length
        else start + 10
      match copyLoop compatibilities inner start stop [] with
      | .error s => .error s
      | .ok rc => chunkLoop compatibilities inner fuel (i + 10) (chunks ++ [rc])
    else .ok chunks

/-- The insert loop of lines 104-116. One statement per chunk, carrying the
rows of the chunk in order; the first error ends the loop. Returns the
statements issued and the error, if any. `nth` counts the earlier inserts. -/
def execChunks (conn : Conn) :
    List (List userCompatability) → Nat → List (List userCompatability) × Option PgError
  | [], _ => ([], none)
  | chunk :: rest, nth =>
    match conn.insertCompatibilities nth chunk with
    | .error err => ([chunk], some err)
    | .ok _ =>
      let r := execChunks conn rest (nth + 1)
      (chunk :: r.1, r.2)

/-- How `setCompatibility` ends: `nil`, an error, or not at all. -/
inductive WriteOutcome where
  | success
  | failure (err : PgError)
  | stopped (s : Stop)
  deriving DecidableEq, Repr

/-- A run of `setCompatibility`: the inserts issued, in order, and the end. -/
structure WriteRun where
  issued : List (List userCompatability)
  outcome : WriteOutcome
  deriving DecidableEq, Repr

/-- Function `setCompatibility` (lines 81-119), its loops run with the given fuel. -/
def setCompatibility (fuel : Nat) (compatibilities : List userCompatability) (conn : Conn) :
    WriteRun :=
  if compatibilities.length = 0 then ⟨[], .success⟩
  else
    match chunkLoop compatibilities fuel fuel 0 [] with
    | .error s => ⟨[], .stopped s⟩
    | .ok chunks =>
      match execChunks conn chunks 0 with
      | (issued, none) => ⟨issued, .success⟩
      | (issued, some err) => ⟨issued, .failure err⟩

/-- Chunk number `k` of a sequence: the elements at positions `10 k` to
`min (10 k + 10) n - 1`. -/
def chunkAt (compatibilities : List userCompatability) (k : Nat) : List userCompatability :=
  (compatibilities.drop (10 * k)).take 10

/-- The chunks of a sequence of `n` elements: `⌈n / 10⌉` of them. -/
def chunksOf (compatibilities : List userCompatability) : List (List userCompatability) :=
  (List.range ((compatibilities.length + 9) / 10)).map (chunkAt compatibilities)

/-! ## The users relation and the page statement -/

/-- Row of the relation `users(id, gender, interested_in, created_at)`. -/
structure UserRow where
  id : String
  gender : String
  interested_in : String
  created_at : Int
  deriving DecidableEq, Repr

/-- The `WHERE` clause of the page statement on one row. -/
def UsersQuery.selects (q : UsersQuery) (u : UserRow) : Bool :=
  decide (u.interested_in = q.interested_in) && decide (u.gender = q.gender) &&
    (match q.whereCreatedAt with
     | none => true
     | some c => decide (u.created_at < c))

/-- The rows the page statement returns on a state of the relation: the rows
the `WHERE` clause keeps, `ORDER BY created_at DESC` (rows of equal
`created_at` in their stored order), `LIMIT 100`, projected on `id,
created_at`. -/
def UsersQuery.eval (q : UsersQuery) (users : List UserRow) : List userInterest :=
  ((((users.filter q.selects).insertionSort (fun a b => a.created_at ≥ b.created_at)).take 100).map
    (fun u => ⟨u.id, u.created_at⟩))

/-- A connection whose page statement is answered from a fixed state of the
`users` relation; the other statements find nothing. -/
def tableConn (users : List UserRow) : Conn where
  selectUserInfo := fun _ => .error "no rows in result set"
  selectAnswersOf := fun _ => .ok []
  selectUsers := fun _ q => .ok (q.eval users)
  selectAnswersIn := fun _ _ => .ok []
  insertCompatibilities := fun _ _ => .ok ()

/-! ## Sample data -/

/-- A connection on which the second page request fails after the first page
gave a qualifying candidate. -/
def failOnSecondPage : Conn where
  selectUserInfo := fun _ => .ok ("m", "f")
  selectAnswersOf := fun u => .ok [⟨u, "a1", "q1"⟩]
  selectUsers := fun nth _ => if nth = 0 then .ok [⟨"c1", 7⟩] else .error "connection lost"
  selectAnswersIn := fun _ _ => .ok [⟨"c1", "a1", "q1"⟩]
  insertCompatibilities := fun _ _ => .ok ()

/-- The candidates `x`, `xx`, ... of a page of `n` entries starting after
`from_` earlier ones, with decreasing creation timestamps. -/
def sampleUsers (from_ n : Nat) : List userInterest :=
  (List.range n).map (fun k =>
    ⟨String.mk (List.replicate (from_ + k + 1) 'x'), (1000 : Int) - ((from_ + k : Nat) : Int)⟩)

/-- Every sample candidate gives answer `a1` to question `q1`. -/
def sampleAnswers (users : List userInterest) : List userAnswer :=
  users.map (fun e => ⟨e.id, "a1", "q1"⟩)

/-- 150 candidates in two pages (100 and 50). -/
def samplePages : List Page :=
  [(sampleUsers 0 100, sampleAnswers (sampleUsers 0 100)),
   (sampleUsers 100 50, sampleAnswers (sampleUsers 100 50))]

/-- A connection serving `samplePages`, then an empty page; the subject
answered `a1` to `q1`, so all 150 candidates score 100. -/
def sampleConn : Conn where
  selectUserInfo := fun _ => .ok ("m", "f")
  selectAnswersOf := fun u => .ok [⟨u, "a1", "q1"⟩]
  selectUsers := fun nth _ => .ok ((samplePages[nth]?.map Prod.fst).getD [])
  selectAnswersIn := fun nth _ => .ok ((samplePages[nth]?.map Prod.snd).getD [])
  insertCompatibilities := fun _ _ => .ok ()

/-- 25 results. -/
def sample25 : List userCompatability :=
  (List.range 25).map (fun k => ⟨"s", "c", (k : Int)⟩)

/-- A connection whose second insert (number 1) fails. -/
def failSecondInsert : Conn where
  selectUserInfo := fun _ => .error "unused"
  selectAnswersOf := fun _ => .ok []
  selectUsers := fun _ _ => .ok []
  selectAnswersIn := fun _ _ => .ok []
  insertCompatibilities := fun nth _ => if nth = 1 then .error "insert failed" else .ok ()

/-- Three rows of `users`. -/
def sampleTable : List UserRow :=
  [⟨"u1", "male", "female", 5⟩, ⟨"u2", "female", "male", 9⟩, ⟨"u3", "female", "male", 3⟩]

/-- A connection with no candidate: the first page is empty. -/
def emptySource : Conn where
  selectUserInfo := fun _ => .ok ("m", "f")
  selectAnswersOf := fun u => .ok [⟨u, "a1", "q1"⟩]
  selectUsers := fun _ _ => .ok []
  selectAnswersIn := fun _ _ => .ok []
  insertCompatibilities := fun _ _ => .ok ()

/-- One page on which the subject `s` follows the candidate `c1`, whose
answer differs from the subject's. -/
def selfPage : Page :=
  ([⟨"c1", 9⟩, ⟨"s", 8⟩], [⟨"c1", "a2", "q1"⟩, ⟨"s", "a1", "q1"⟩])

/-- A connection serving `selfPage`, then an empty page. -/
def selfSource : Conn where
  selectUserInfo := fun _ => .ok ("m", "f")
  selectAnswersOf := fun u => .ok [⟨u, "a1", "q1"⟩]
  selectUsers := fun nth _ => if nth = 0 then .ok selfPage.1 else .ok []
  selectAnswersIn := fun _ _ => .ok selfPage.2
  insertCompatibilities := fun _ _ => .ok ()

/-- Question number `k` of the boundary sample: one character. -/
def sampleQuestion (k : Nat) : String :=
  String.singleton (Char.ofNat (48 + k))

/-- The records of a user answering `a` to the first `n` sample questions. -/
def boundaryAnswers (user : String) (n : Nat) : List userAnswer :=
  (List.range n).map (fun k => ⟨user, "a", sampleQuestion k⟩)

/-- The subject's map of the boundary sample: 61 questions answered `a`. -/
def boundarySubject : GoMap :=
  (boundaryAnswers "s" 61).foldl (fun result i => result.set i.question_id i.answer_id) ∅

/-- The page of the boundary sample: `c40` agrees with the subject on 25 of
its 61 questions (score 40), `c39` on 24 (score 39). -/
def boundaryPage : Page :=
  ([⟨"c40", 9⟩, ⟨"c39", 8⟩], boundaryAnswers "c40" 25 ++ boundaryAnswers "c39" 24)

/-- A connection serving `boundaryPage`, then an empty page. -/
def boundarySource : Conn where
  selectUserInfo := fun _ => .ok ("m", "f")
  selectAnswersOf := fun u => .ok (boundaryAnswers u 61)
  selectUsers := fun nth _ => if nth = 0 then .ok boundaryPage.1 else .ok []
  selectAnswersIn := fun _ _ => .ok boundaryPage.2
  insertCompatibilities := fun _ _ => .ok ()

/-- A connection whose first page gives the qualifying candidate `c1` and
whose second page query breaks while its rows are streamed, before any row:
`conn.Query` returns no error, `rows.Next()` returns `false`, `rows.Err()`
holds the error. -/
def streamFailure : PgConn where
  queryUserInfo := fun _ => .ok ("m", "f")
  queryAnswersOf := fun u => .ok ⟨[.ok ⟨u, "a1", "q1"⟩], none⟩
  queryUsers := fun nth _ =>
    if nth = 0 then .ok ⟨[.ok ⟨"c1", 7⟩], none⟩ else .ok ⟨[], some "connection lost"⟩
  queryAnswersIn := fun _ _ => .ok ⟨[.ok ⟨"c1", "a1", "q1"⟩], none⟩
  execInsert := fun _ _ => .ok ()

/-! ## Scorer: auxiliary facts -/

theorem countMatches_foldl (B : GoMap) (es : List (Sigma fun _ : String => String)) (c0 : Int) :
    es.foldl (fun c e => if e.2 = B.index e.1 then c + 1 else c) c0
      = c0 + (es.countP (fun e => decide (e.2 = B.index e.1)) : Nat) := by
  induction es generalizing c0 with
  | nil => simp
  | cons e es ih =>
    simp only [List.foldl_cons, List.countP_cons]
    rw [ih]
    by_cases h : e.2 = B.index e.1
    · simp [h]; ring
    · simp [h]

theorem countMatches_eq (A B : GoMap) : countMatches A B = (matchCount A B : Int) := by
  unfold countMatches matchCount
  rw [countMatches_foldl]
  simp

theorem matchCount_le (A B : GoMap) : matchCount A B ≤ A.entries.length :=
  List.countP_le_length _

/-- The value the code computes: the truncated quotient. -/
theorem getCompatibilityPercentBetween_eq (A B : GoMap) :
    getCompatibilityPercentBetween A B
      = .ok (((100 * matchCount A B / A.entries.length : Nat) : Int)) := by
  unfold getCompatibilityPercentBetween
  simp only [countMatches_eq]
  have hle := matchCount_le A B
  by_cases hc : matchCount A B = 0
  · simp [hc, Except.map]
  · have hpos : 0 < A.entries.length := by omega
    have hne : (A.len) ≠ 0 := by
      unfold GoMap.len
      exact_mod_cast (Nat.pos_iff_ne_zero.mp hpos)
    have hc' : ((matchCount A B : Nat) : Int) ≠ 0 := by exact_mod_cast hc
    have hq : 100 * matchCount A B / A.entries.length ≤ 100 := by
      apply Nat.div_le_of_le_mul
      nlinarith
    have htd : (100 * (matchCount A B : Int)).tdiv A.len
        = ((100 * matchCount A B / A.entries.length : Nat) : Int) := by
      unfold GoMap.len
      rw [Int.tdiv_eq_ediv (by positivity) (by positivity)]
      push_cast
      rfl
    have hgt : ¬ (((100 * matchCount A B / A.entries.length : Nat) : Int) > 100) := by
      push_neg
      exact_mod_cast hq
    simp only [hc', if_false, percentage, hne, htd, Except.map, Int.ceil_intCast, if_neg hgt]

/-! ## Matching engine: auxiliary facts -/

theorem score_eq (A B : GoMap) : getCompatibilityPercentBetween A B = .ok (scoreValue A B) :=
  getCompatibilityPercentBetween_eq A B

theorem scoreUsers_nil (u : String) (A : GoMap) (ua : List userAnswer) (fm : Int)
    (cs : List userCompatability) :
    scoreUsers u A ua [] fm cs = ([], .fallThrough fm cs) := rfl

theorem scoreUsers_cons (u : String) (A : GoMap) (ua : List userAnswer) (id : String)
    (rest : List String) (fm : Int) (cs : List userCompatability) :
    scoreUsers u A ua (id :: rest) fm cs =
      if scoreValue A (answersOfUser ua id) ≥ 40 then
        if fm + 1 ≥ 100 then
          ([.score id (scoreValue A (answersOfUser ua id)),
            .append ⟨u, id, scoreValue A (answersOfUser ua id)⟩],
           .ret (cs ++ [⟨u, id, scoreValue A (answersOfUser ua id)⟩]))
        else
          (.score id (scoreValue A (answersOfUser ua id))
            :: .append ⟨u, id, scoreValue A (answersOfUser ua id)⟩
            :: (scoreUsers u A ua rest (fm + 1)
                (cs ++ [⟨u, id, scoreValue A (answersOfUser ua id)⟩])).1,
           (scoreUsers u A ua rest (fm + 1)
                (cs ++ [⟨u, id, scoreValue A (answersOfUser ua id)⟩])).2)
      else
        (.score id (scoreValue A (answersOfUser ua id)) :: (scoreUsers u A ua rest fm cs).1,
         (scoreUsers u A ua rest fm cs).2) := by
  rw [scoreUsers, score_eq]

@[simp] theorem appendedOf_nil : appendedOf [] = [] := rfl
@[simp] theorem appendedOf_cons_append (c : userCompatability) (tr : List Event) :
    appendedOf (.append c :: tr) = c :: appendedOf tr := rfl
@[simp] theorem appendedOf_cons_score (i : String) (p : Int) (tr : List Event) :
    appendedOf (.score i p :: tr) = appendedOf tr := rfl
@[simp] theorem appendedOf_cons_page (g i : String) (c : Int)
    (r : Except PgError (List userInterest)) (tr : List Event) :
    appendedOf (.findInterestedIds g i c r :: tr) = appendedOf tr := rfl
@[simp] theorem appendedOf_cons_bulk (ids : List String)
    (r : Except PgError (List userAnswer)) (tr : List Event) :
    appendedOf (.findAllAnswersForUsers ids r :: tr) = appendedOf tr := rfl
@[simp] theorem appendedOf_cons_info (u : String)
    (r : Except PgError (String × String)) (tr : List Event) :
    appendedOf (.getUserInfoById u r :: tr) = appendedOf tr := rfl
@[simp] theorem appendedOf_cons_answers (u : String)
    (r : Except PgError GoMap) (tr : List Event) :
    appendedOf (.findAllAnswersForUser u r :: tr) = appendedOf tr := rfl
@[simp] theorem appendedOf_app (a b : List Event) :
    appendedOf (a ++ b) = appendedOf a ++ appendedOf b := by
  simp [appendedOf]

@[simp] theorem scoredOf_nil : scoredOf [] = [] := rfl
@[simp] theorem scoredOf_cons_append (c : userCompatability) (tr : List Event) :
    scoredOf (.append c :: tr) = scoredOf tr := rfl
@[simp] theorem scoredOf_cons_score (i : String) (p : Int) (tr : List Event) :
    scoredOf (.score i p :: tr) = (i, p) :: scoredOf tr := rfl
@[simp] theorem scoredOf_cons_page (g i : String) (c : Int)
    (r : Except PgError (List userInterest)) (tr : List Event) :
    scoredOf (.findInterestedIds g i c r :: tr) = scoredOf tr := rfl
@[simp] theorem scoredOf_cons_bulk (ids : List String)
    (r : Except PgError (List userAnswer)) (tr : List Event) :
    scoredOf (.findAllAnswersForUsers ids r :: tr) = scoredOf tr := rfl
@[simp] theorem scoredOf_cons_info (u : String)
    (r : Except PgError (String × String)) (tr : List Event) :
    scoredOf (.getUserInfoById u r :: tr) = scoredOf tr := rfl
@[simp] theorem scoredOf_cons_answers (u : String)
    (r : Except PgError GoMap) (tr : List Event) :
    scoredOf (.findAllAnswersForUser u r :: tr) = scoredOf tr := rfl
@[simp] theorem scoredOf_app (a b : List Event) :
    scoredOf (a ++ b) = scoredOf a ++ scoredOf b := by
  simp [scoredOf]

theorem keepScored_of_ge (u i : String) (p : Int) (h : p ≥ 40) :
    keepScored u (i, p) = some ⟨u, i, p⟩ := by
  simp [keepScored, h]

theorem keepScored_of_lt (u i : String) (p : Int) (h : ¬ p ≥ 40) :
    keepScored u (i, p) = none := by
  simp only [keepScored, if_neg h]

theorem scoreUsers_threshold (u : String) (A : GoMap) (ua : List userAnswer) (ids : List String)
    (fm : Int) (cs : List userCompatability) :
    appendedOf (scoreUsers u A ua ids fm cs).1
      = (scoredOf (scoreUsers u A ua ids fm cs).1).filterMap (keepScored u) := by
  induction ids generalizing fm cs with
  | nil => simp [scoreUsers_nil]
  | cons id rest ih =>
    rw [scoreUsers_cons]
    split_ifs with h1 h2
    · simp [keepScored_of_ge _ _ _ h1]
    · simp [keepScored_of_ge _ _ _ h1, ih]
    · simp [keepScored_of_lt _ _ _ h1, ih]

/-- What the loop over a page leaves in `compatibilities`, and its trace. -/
theorem scoreUsers_flow (u : String) (A : GoMap) (ua : List userAnswer) (ids : List String)
    (fm : Int) (cs : List userCompatability) :
    (∀ fm1 cs1, (scoreUsers u A ua ids fm cs).2 = .fallThrough fm1 cs1 →
        cs1 = cs ++ appendedOf (scoreUsers u A ua ids fm cs).1 ∧
        fm1 = fm + (appendedOf (scoreUsers u A ua ids fm cs).1).length ∧ (fm < 100 → fm1 < 100)) ∧
    (∀ cs1, (scoreUsers u A ua ids fm cs).2 = .ret cs1 →
        cs1 = cs ++ appendedOf (scoreUsers u A ua ids fm cs).1 ∧
        fm + (appendedOf (scoreUsers u A ua ids fm cs).1).length ≥ 100 ∧
        (fm < 100 → fm + (appendedOf (scoreUsers u A ua ids fm cs).1).length = 100) ∧
        ∃ pre c, (scoreUsers u A ua ids fm cs).1 = pre ++ [.append c]) ∧
    (∀ f, (scoreUsers u A ua ids fm cs).2 ≠ .panic f) ∧
    (∀ e ∈ (scoreUsers u A ua ids fm cs).1, e.failed = false) := by
  induction ids generalizing fm cs with
  | nil => simp [scoreUsers_nil]
  | cons id rest ih =>
    rw [scoreUsers_cons]
    split_ifs with h1 h2
    · refine ⟨by simp, ?_, by simp, by simp [Event.failed]⟩
      intro cs1 h
      simp only [Flow.ret.injEq] at h
      subst h
      refine ⟨by simp, by simpa using h2, ?_, ⟨[.score id _], _, rfl⟩⟩
      intro hlt
      simp
      omega
    · obtain ⟨ih1, ih2, ih3, ih4⟩ := ih (fm + 1) (cs ++ [⟨u, id, scoreValue A (answersOfUser ua id)⟩])
      refine ⟨?_, ?_, ih3, ?_⟩
      · intro fm1 cs1 h
        obtain ⟨a, b, c⟩ := ih1 fm1 cs1 h
        refine ⟨by simp [a], by simp [b]; ring, fun _ => c (by omega)⟩
      · intro cs1 h
        obtain ⟨a, b, c, pre, x, d⟩ := ih2 cs1 h
        refine ⟨by simp [a], ?_, ?_, ⟨.score id (scoreValue A (answersOfUser ua id)) :: .append ⟨u, id, scoreValue A (answersOfUser ua id)⟩ :: pre, x, by rw [d]; rfl⟩⟩
        · simp; omega
        · intro hlt
          have := c (by omega)
          simp; omega
      · intro e he
        simp only [List.mem_cons] at he
        rcases he with rfl | rfl | he
        · rfl
        · rfl
        · exact ih4 e he
    · obtain ⟨ih1, ih2, ih3, ih4⟩ := ih fm cs
      refine ⟨?_, ?_, ih3, ?_⟩
      · intro fm1 cs1 h
        obtain ⟨a, b, c⟩ := ih1 fm1 cs1 h
        exact ⟨by simp [a], by simp [b], c⟩
      · intro cs1 h
        obtain ⟨a, b, c, pre, x, d⟩ := ih2 cs1 h
        exact ⟨by simp [a], by simpa using b, by simpa using c, ⟨.score id (scoreValue A (answersOfUser ua id)) :: pre, x, by rw [d]; rfl⟩⟩
      · intro e he
        simp only [List.mem_cons] at he
        rcases he with rfl | he
        · rfl
        · exact ih4 e he



theorem scanLoop_zero (u g i : String) (A : GoMap) (conn : Conn) (nth : Nat) (cur fm : Int)
    (cs : List userCompatability) :
    scanLoop u g i A conn 0 nth cur fm cs = ⟨[], .outOfFuel⟩ := rfl

theorem scanLoop_page_error (u g i : String) (A : GoMap) (conn : Conn) (fuel nth : Nat)
    (cur fm : Int) (cs : List userCompatability) (err : PgError)
    (h : findInterestedIds g i cur nth conn = .error err) :
    scanLoop u g i A conn (fuel + 1) nth cur fm cs
      = ⟨[.findInterestedIds g i cur (.error err)], .returned []⟩ := by
  simp only [scanLoop, h]

theorem scanLoop_page_empty (u g i : String) (A : GoMap) (conn : Conn) (fuel nth : Nat)
    (cur fm : Int) (cs : List userCompatability)
    (h : findInterestedIds g i cur nth conn = .ok []) :
    scanLoop u g i A conn (fuel + 1) nth cur fm cs
      = ⟨[.findInterestedIds g i cur (.ok [])], .returned cs⟩ := by
  simp [scanLoop, h]

theorem scanLoop_bulk_error (u g i : String) (A : GoMap) (conn : Conn) (fuel nth : Nat)
    (cur fm : Int) (cs : List userCompatability) (users : List userInterest) (err : PgError)
    (h : findInterestedIds g i cur nth conn = .ok users) (hne : users ≠ [])
    (h2 : findAllAnswersForUsers (users.map fun e => e.id) nth conn = .error err) :
    scanLoop u g i A conn (fuel + 1) nth cur fm cs
      = ⟨[.findInterestedIds g i cur (.ok users),
          .findAllAnswersForUsers (users.map fun e => e.id) (.error err)], .returned []⟩ := by
  have hlen : ¬ (0 ≥ users.length) := by
    have := List.length_pos.mpr hne
    omega
  simp only [scanLoop, h, h2, if_neg hlen]

theorem scanLoop_ret (u g i : String) (A : GoMap) (conn : Conn) (fuel nth : Nat)
    (cur fm : Int) (cs : List userCompatability) (users : List userInterest)
    (usersAnswers : List userAnswer) (tr : List Event) (cs1 : List userCompatability)
    (h : findInterestedIds g i cur nth conn = .ok users) (hne : users ≠ [])
    (h2 : findAllAnswersForUsers (users.map fun e => e.id) nth conn = .ok usersAnswers)
    (h3 : scoreUsers u A usersAnswers (users.map fun e => e.id) fm cs = (tr, .ret cs1)) :
    scanLoop u g i A conn (fuel + 1) nth cur fm cs
      = ⟨.findInterestedIds g i cur (.ok users)
          :: .findAllAnswersForUsers (users.map fun e => e.id) (.ok usersAnswers) :: tr,
         .returned cs1⟩ := by
  have hlen : ¬ (0 ≥ users.length) := by
    have := List.length_pos.mpr hne
    omega
  simp only [scanLoop, h, h2, if_neg hlen, h3]

theorem scanLoop_fall (u g i : String) (A : GoMap) (conn : Conn) (fuel nth : Nat)
    (cur fm : Int) (cs : List userCompatability) (users : List userInterest)
    (usersAnswers : List userAnswer) (tr : List Event) (fm1 : Int)
    (cs1 : List userCompatability) (last : userInterest)
    (h : findInterestedIds g i cur nth conn = .ok users) (hlast : users.getLast? = some last)
    (h2 : findAllAnswersForUsers (users.map fun e => e.id) nth conn = .ok usersAnswers)
    (h3 : scoreUsers u A usersAnswers (users.map fun e => e.id) fm cs
      = (tr, .fallThrough fm1 cs1)) :
    scanLoop u g i A conn (fuel + 1) nth cur fm cs
      = ⟨.findInterestedIds g i cur (.ok users)
          :: .findAllAnswersForUsers (users.map fun e => e.id) (.ok usersAnswers)
          :: tr ++ (scanLoop u g i A conn fuel (nth + 1) last.created_at fm1 cs1).trace,
         (scanLoop u g i A conn fuel (nth + 1) last.created_at fm1 cs1).outcome⟩ := by
  have hne : users ≠ [] := by
    rintro rfl
    simp at hlast
  have hlen : ¬ (0 ≥ users.length) := by
    have := List.length_pos.mpr hne
    omega
  have hidx : users[users.length - 1]? = some last := by
    rw [← hlast, List.getLast?_eq_getElem?]
  simp only [scanLoop, h, h2, if_neg hlen, h3, hidx]

theorem exists_getLast (users : List userInterest) (hne : users ≠ []) :
    ∃ last, users.getLast? = some last :=
  ⟨users.getLast hne, List.getLast?_eq_getLast _ hne⟩

theorem scanLoop_inv (u g i : String) (A : GoMap) (conn : Conn) (fuel nth : Nat) (cur fm : Int)
    (cs : List userCompatability) :
    appendedOf (scanLoop u g i A conn fuel nth cur fm cs).trace
      = (scoredOf (scanLoop u g i A conn fuel nth cur fm cs).trace).filterMap (keepScored u) ∧
    (∀ rs, (scanLoop u g i A conn fuel nth cur fm cs).outcome = .returned rs →
      rs = [] ∨ (rs = cs ++ appendedOf (scanLoop u g i A conn fuel nth cur fm cs).trace ∧
        (fm < 100 →
          fm + (appendedOf (scanLoop u g i A conn fuel nth cur fm cs).trace).length ≤ 100))) ∧
    ((∃ e ∈ (scanLoop u g i A conn fuel nth cur fm cs).trace, e.failed = true) →
      (scanLoop u g i A conn fuel nth cur fm cs).outcome = .returned []) ∧
    (∀ f, (scanLoop u g i A conn fuel nth cur fm cs).outcome ≠ .panicked f) := by
  induction fuel generalizing nth cur fm cs with
  | zero => simp [scanLoop_zero]
  | succ fuel ih =>
    cases hres : findInterestedIds g i cur nth conn with
    | error err =>
      rw [scanLoop_page_error u g i A conn fuel nth cur fm cs err hres]
      simp [Event.failed]
    | ok users =>
      by_cases hne : users = []
      · subst hne
        rw [scanLoop_page_empty u g i A conn fuel nth cur fm cs hres]
        simp only [appendedOf_cons_page, appendedOf_nil, scoredOf_cons_page, scoredOf_nil,
          List.filterMap_nil, Outcome.returned.injEq, List.append_nil, List.length_nil,
          true_and, ne_eq, not_false_eq_true, implies_true, and_true, reduceCtorEq]
        refine ⟨fun rs h => Or.inr ⟨h.symm, fun hlt => by simp; omega⟩, ?_⟩
        rintro ⟨e, he, hf⟩
        simp only [List.mem_singleton] at he
        subst he
        simp [Event.failed] at hf
      · cases hres2 : findAllAnswersForUsers (users.map fun e => e.id) nth conn with
        | error err =>
          rw [scanLoop_bulk_error u g i A conn fuel nth cur fm cs users err hres hne hres2]
          simp [Event.failed]
        | ok usersAnswers =>
          obtain ⟨f1, f2, f3, f4⟩ :=
            scoreUsers_flow u A usersAnswers (users.map fun e => e.id) fm cs
          have hth := scoreUsers_threshold u A usersAnswers (users.map fun e => e.id) fm cs
          rcases hsu : scoreUsers u A usersAnswers (users.map fun e => e.id) fm cs
            with ⟨tr, flow⟩
          rw [hsu] at f1 f2 f3 f4 hth
          simp only [] at f1 f2 f3 f4 hth
          cases flow with
          | ret cs1 =>
            rw [scanLoop_ret u g i A conn fuel nth cur fm cs users usersAnswers tr cs1
              hres hne hres2 hsu]
            obtain ⟨a, b, c, _⟩ := f2 cs1 rfl
            refine ⟨by simpa using hth, ?_, ?_, by simp⟩
            · intro rs h
              simp only [Outcome.returned.injEq] at h
              subst h
              right
              refine ⟨by simpa using a, fun hlt => ?_⟩
              have := c hlt
              simp only [appendedOf_cons_page, appendedOf_cons_bulk]
              omega
            · rintro ⟨e, he, hf⟩
              simp only [List.mem_cons] at he
              rcases he with rfl | rfl | he
              · simp [Event.failed] at hf
              · simp [Event.failed] at hf
              · rw [f4 e he] at hf
                cases hf
          | panic f => exact absurd rfl (f3 f)
          | fallThrough fm1 cs1 =>
            obtain ⟨last, hlast⟩ := exists_getLast users hne
            rw [scanLoop_fall u g i A conn fuel nth cur fm cs users usersAnswers tr fm1 cs1
              last hres hlast hres2 hsu]
            obtain ⟨a, b, c⟩ := f1 fm1 cs1 rfl
            obtain ⟨i1, i2, i3, i4⟩ := ih (nth + 1) last.created_at fm1 cs1
            refine ⟨?_, ?_, ?_, i4⟩
            · simp [hth, i1]
            · intro rs h
              rcases i2 rs h with h0 | ⟨h1, h2⟩
              · exact Or.inl h0
              · right
                refine ⟨by simp [h1, a], fun hlt => ?_⟩
                have := h2 (c hlt)
                simp only [appendedOf_cons_page, appendedOf_cons_bulk, appendedOf_app,
                  List.length_append]
                push_cast
                omega
            · rintro ⟨e, he, hf⟩
              simp only [List.mem_cons, List.mem_append] at he
              rcases he with (he | he | he) | he
              · rw [he] at hf
                simp [Event.failed] at hf
              · rw [he] at hf
                simp [Event.failed] at hf
              · rw [f4 e he] at hf
                cases hf
              · exact i3 ⟨e, he, hf⟩

theorem qualifiers_nil (u : String) (A : GoMap) (ua : List userAnswer) :
    qualifiers u A ua [] = [] := rfl

theorem qualifiers_cons (u : String) (A : GoMap) (ua : List userAnswer) (id : String)
    (rest : List String) :
    qualifiers u A ua (id :: rest) =
      if scoreValue A (answersOfUser ua id) ≥ 40 then
        ⟨u, id, scoreValue A (answersOfUser ua id)⟩ :: qualifiers u A ua rest
      else qualifiers u A ua rest := by
  unfold qualifiers
  rw [List.filterMap_cons]
  split_ifs with h <;> simp [h]

/-- The appends of the loop over a page are a prefix of the page's qualifiers,
and all of them when the loop falls through. -/
theorem scoreUsers_qualifiers (u : String) (A : GoMap) (ua : List userAnswer)
    (ids : List String) (fm : Int) (cs : List userCompatability) :
    appendedOf (scoreUsers u A ua ids fm cs).1 <+: qualifiers u A ua ids ∧
    (∀ fm1 cs1, (scoreUsers u A ua ids fm cs).2 = .fallThrough fm1 cs1 →
      appendedOf (scoreUsers u A ua ids fm cs).1 = qualifiers u A ua ids) := by
  induction ids generalizing fm cs with
  | nil => simp [scoreUsers_nil, qualifiers_nil]
  | cons id rest ih =>
    rw [scoreUsers_cons, qualifiers_cons]
    split_ifs with h1 h2
    · refine ⟨?_, by simp⟩
      simp only [appendedOf_cons_score, appendedOf_cons_append, appendedOf_nil]
      exact ⟨_, rfl⟩
    · obtain ⟨a, b⟩ := ih (fm + 1) (cs ++ [⟨u, id, scoreValue A (answersOfUser ua id)⟩])
      refine ⟨?_, ?_⟩
      · simp only [appendedOf_cons_score, appendedOf_cons_append]
        exact (List.prefix_cons_inj _).mpr a
      · intro fm1 cs1 h
        simp only [appendedOf_cons_score, appendedOf_cons_append]
        rw [b fm1 cs1 h]
    · obtain ⟨a, b⟩ := ih fm cs
      exact ⟨by simpa using a, fun fm1 cs1 h => by simpa using b fm1 cs1 h⟩

theorem prefix_eq_take {α : Type} {l1 l2 : List α} (h : l1 <+: l2) : l1 = l2.take l1.length := by
  obtain ⟨t, rfl⟩ := h
  simp

/-- The scan over served pages holding enough qualifiers ends through the cap
check, right after the append that brings `foundMatches` to 100. -/
theorem scanLoop_cap (u g i : String) (A : GoMap) (conn : Conn) (ps : List Page) :
    ∀ (nth : Nat) (cur fm : Int) (cs : List userCompatability) (fuel : Nat),
    Serves conn g i ps nth cur → fm < 100 →
    100 ≤ fm + (qualifiersOfPages u A ps).length → ps.length ≤ fuel →
    ∃ pre c,
      (scanLoop u g i A conn fuel nth cur fm cs).trace = pre ++ [.append c] ∧
      (scanLoop u g i A conn fuel nth cur fm cs).outcome
        = .returned (cs ++ appendedOf (pre ++ [.append c])) ∧
      fm + (appendedOf (pre ++ [.append c])).length = 100 ∧
      appendedOf (pre ++ [.append c]) <+: qualifiersOfPages u A ps := by
  induction ps with
  | nil =>
    intro nth cur fm cs fuel _ hfm hq _
    simp [qualifiersOfPages] at hq
    omega
  | cons p ps ih =>
    intro nth cur fm cs fuel hs hfm hq hfuel
    obtain ⟨hne, hpage, hbulk, hrest⟩ := hs
    obtain ⟨fuel, rfl⟩ : ∃ n, fuel = n + 1 := ⟨fuel - 1, by simp at hfuel; omega⟩
    obtain ⟨f1, f2, f3, f4⟩ := scoreUsers_flow u A p.2 (p.1.map fun e => e.id) fm cs
    obtain ⟨q1, q2⟩ := scoreUsers_qualifiers u A p.2 (p.1.map fun e => e.id) fm cs
    rcases hsu : scoreUsers u A p.2 (p.1.map fun e => e.id) fm cs with ⟨tr, flow⟩
    rw [hsu] at f1 f2 f3 f4 q1 q2
    simp only [] at f1 f2 f3 f4 q1 q2
    cases flow with
    | panic f => exact absurd rfl (f3 f)
    | ret cs1 =>
      rw [scanLoop_ret u g i A conn fuel nth cur fm cs p.1 p.2 tr cs1 hpage hne hbulk hsu]
      obtain ⟨a, b, c, pre, x, d⟩ := f2 cs1 rfl
      refine ⟨.findInterestedIds g i cur (.ok p.1)
          :: .findAllAnswersForUsers (p.1.map fun e => e.id) (.ok p.2) :: pre, x, ?_, ?_, ?_, ?_⟩
      · simp [d]
      · simp only [a, d]
        simp
      · have := c hfm
        rw [d] at this
        simpa using this
      · have : appendedOf tr <+: qualifiersOfPages u A (p :: ps) :=
          q1.trans (List.prefix_append _ _)
        rw [d] at this
        simpa using this
    | fallThrough fm1 cs1 =>
      obtain ⟨last, hlast⟩ := exists_getLast p.1 hne
      rw [scanLoop_fall u g i A conn fuel nth cur fm cs p.1 p.2 tr fm1 cs1 last
        hpage hlast hbulk hsu]
      obtain ⟨a, b, c⟩ := f1 fm1 cs1 rfl
      have hq2 := q2 fm1 cs1 rfl
      have hcur : cursorAfter p cur = last.created_at := by
        simp [cursorAfter, hlast]
      rw [hcur] at hrest
      have hq' : 100 ≤ fm1 + (qualifiersOfPages u A ps).length := by
        rw [b, hq2]
        simp only [qualifiersOfPages, List.length_append] at hq
        push_cast at hq
        omega
      obtain ⟨pre, x, e1, e2, e3, e4⟩ := ih (nth + 1) last.created_at fm1 cs1 fuel hrest (c hfm) hq'
        (by simp at hfuel; omega)
      refine ⟨.findInterestedIds g i cur (.ok p.1)
          :: .findAllAnswersForUsers (p.1.map fun e => e.id) (.ok p.2) :: tr ++ pre, x, ?_, ?_, ?_, ?_⟩
      · simp [e1]
      · rw [e2, a]
        simp
      · simp only [appendedOf_app, List.length_append] at e3 ⊢
        simp only [List.cons_append, appendedOf_cons_page, appendedOf_cons_bulk, appendedOf_app,
          List.length_append]
        push_cast at e3 ⊢
        rw [b] at e3
        omega
      · simp only [List.cons_append, appendedOf_cons_page, appendedOf_cons_bulk,
          List.append_assoc, appendedOf_app, qualifiersOfPages]
        rw [hq2]
        simp only [appendedOf_app] at e4
        exact (List.prefix_append_right_inj _).mpr e4

theorem getCompatibility_info_error (fuel : Nat) (u : String) (conn : Conn) (err : PgError)
    (h : getUserInfoById u conn = .error err) :
    getCompatibility fuel u conn = ⟨[.getUserInfoById u (.error err)], .returned []⟩ := by
  simp only [getCompatibility, h]

theorem getCompatibility_answers_error (fuel : Nat) (u g i : String) (conn : Conn)
    (err : PgError) (h : getUserInfoById u conn = .ok (g, i))
    (h2 : findAllAnswersForUser u conn = .error err) :
    getCompatibility fuel u conn
      = ⟨[.getUserInfoById u (.ok (g, i)), .findAllAnswersForUser u (.error err)],
         .returned []⟩ := by
  simp only [getCompatibility, h, h2]

theorem getCompatibility_scan (fuel : Nat) (u g i : String) (conn : Conn) (A : GoMap)
    (h : getUserInfoById u conn = .ok (g, i)) (h2 : findAllAnswersForUser u conn = .ok A) :
    getCompatibility fuel u conn
      = ⟨.getUserInfoById u (.ok (g, i)) :: .findAllAnswersForUser u (.ok A)
          :: (scanLoop u g i A conn fuel 0 (-1) 0 []).trace,
         (scanLoop u g i A conn fuel 0 (-1) 0 []).outcome⟩ := by
  simp only [getCompatibility, h, h2]

theorem percentage_ge_of_mem_keepScored (u : String) (l : List (String × Int))
    (r : userCompatability) (h : r ∈ l.filterMap (keepScored u)) : r.percentage ≥ 40 := by
  rw [List.mem_filterMap] at h
  obtain ⟨s, _, hs⟩ := h
  unfold keepScored at hs
  split_ifs at hs with h40
  simp only [Option.some.injEq] at hs
  subst hs
  exact h40

/-! ## Result writer: auxiliary facts -/

theorem copyLoop_eq (cs : List userCompatability) (stop : Nat) (hstop : stop ≤ cs.length) :
    ∀ (fuel start : Nat) (rc : List userCompatability), stop - start ≤ fuel →
      copyLoop cs fuel start stop rc = .ok (rc ++ (cs.drop start).take (stop - start)) := by
  intro fuel
  induction fuel with
  | zero =>
    intro start rc h
    have h0 : stop - start = 0 := by omega
    have : ¬ start < stop := by omega
    simp [copyLoop, this, h0]
  | succ fuel ih =>
    intro start rc h
    by_cases hlt : start < stop
    · have hidx : start < cs.length := by omega
      have hget : cs[start]? = some cs[start] := List.getElem?_eq_getElem hidx
      simp only [copyLoop, if_pos hlt, hget]
      rw [ih (start + 1) (rc ++ [cs[start]]) (by omega)]
      have h1 : stop - start = (stop - (start + 1)) + 1 := by omega
      rw [h1, List.drop_eq_getElem_cons hidx, List.take_succ_cons]
      simp
    · have h0 : stop - start = 0 := by omega
      simp [copyLoop, hlt, h0]

theorem chunkLoop_eq (cs : List userCompatability) (inner : Nat) (hinner : 10 ≤ inner) :
    ∀ (fuel k : Nat) (chunks : List (List userCompatability)),
      (cs.length + 9) / 10 - k ≤ fuel →
      chunkLoop cs inner fuel (10 * k) chunks
        = .ok (chunks ++ (List.range' k ((cs.length + 9) / 10 - k)).map (chunkAt cs)) := by
  intro fuel
  induction fuel with
  | zero =>
    intro k chunks h
    have h0 : (cs.length + 9) / 10 - k = 0 := by omega
    have : ¬ 10 * k < cs.length := by omega
    simp [chunkLoop, this, h0]
  | succ fuel ih =>
    intro k chunks h
    by_cases hlt : 10 * k < cs.length
    · have hcopy : copyLoop cs inner (10 * k)
          (if 10 * k + 10 ≥ cs.length then cs.length else 10 * k + 10) []
          = .ok (chunkAt cs k) := by
        rw [copyLoop_eq cs _ (by split_ifs <;> omega) inner (10 * k) [] (by split_ifs <;> omega)]
        simp only [List.nil_append, chunkAt]
        split_ifs with hge
        · rw [List.take_of_length_le (by simp), List.take_of_length_le (by simp; omega)]
        · have : 10 * k + 10 - 10 * k = 10 := by omega
          rw [this]
      simp only [chunkLoop, if_pos hlt, hcopy]
      have hk : 10 * k + 10 = 10 * (k + 1) := by ring
      rw [hk, ih (k + 1) (chunks ++ [chunkAt cs k]) (by omega)]
      have h1 : (cs.length + 9) / 10 - k = ((cs.length + 9) / 10 - (k + 1)) + 1 := by omega
      rw [h1, List.range'_succ]
      simp
    · have h0 : (cs.length + 9) / 10 - k = 0 := by omega
      simp [chunkLoop, hlt, h0]

theorem chunkLoop_chunksOf (cs : List userCompatability) (fuel : Nat)
    (hfuel : 10 ≤ fuel ∧ cs.length ≤ fuel) :
    chunkLoop cs fuel fuel 0 [] = .ok (chunksOf cs) := by
  have := chunkLoop_eq cs fuel hfuel.1 fuel 0 [] (by omega)
  simpa [chunksOf, List.range_eq_range'] using this

theorem chunksOf_length (cs : List userCompatability) :
    (chunksOf cs).length = (cs.length + 9) / 10 := by
  simp [chunksOf]

theorem chunksOf_getElem? (cs : List userCompatability) (k : Nat)
    (hk : k < (cs.length + 9) / 10) : (chunksOf cs)[k]? = some (chunkAt cs k) := by
  simp [chunksOf, List.getElem?_range hk]

theorem chunkAt_length (cs : List userCompatability) (k : Nat) :
    (chunkAt cs k).length = min (10 * k + 10) cs.length - 10 * k := by
  simp only [chunkAt, List.length_take, List.length_drop]
  omega

theorem flatten_range'_chunkAt (cs : List userCompatability) :
    ∀ (m k : Nat), 10 * (k + m) ≥ cs.length →
      ((List.range' k m).map (chunkAt cs)).flatten = cs.drop (10 * k) := by
  intro m
  induction m with
  | zero =>
    intro k h
    simp only [List.range'_zero, List.map_nil, List.flatten_nil]
    rw [List.drop_eq_nil_of_le (by simpa using h)]
  | succ m ih =>
    intro k h
    rw [List.range'_succ, List.map_cons, List.flatten_cons, ih (k + 1) (by omega)]
    simp only [chunkAt]
    have : 10 * (k + 1) = 10 * k + 10 := by ring
    rw [this, ← List.drop_drop, List.take_append_drop]

theorem chunksOf_flatten (cs : List userCompatability) : (chunksOf cs).flatten = cs := by
  have := flatten_range'_chunkAt cs ((cs.length + 9) / 10) 0 (by omega)
  simpa [chunksOf, List.range_eq_range'] using this

theorem execChunks_all_ok (conn : Conn) (chunks : List (List userCompatability)) :
    ∀ nth : Nat,
      (∀ j, j < chunks.length →
        ∀ c, chunks[j]? = some c → conn.insertCompatibilities (nth + j) c = .ok ()) →
      execChunks conn chunks nth = (chunks, none) := by
  induction chunks with
  | nil => intro nth _; rfl
  | cons c rest ih =>
    intro nth h
    have h0 := h 0 (by simp) c (by simp)
    simp only [Nat.add_zero] at h0
    have hrest := ih (nth + 1) (fun j hj c1 hc1 => by
      have := h (j + 1) (by simpa using hj) c1 (by simpa using hc1)
      rwa [show nth + (j + 1) = nth + 1 + j by omega] at this)
    simp only [execChunks, h0, hrest]

theorem execChunks_first_fail (conn : Conn) (chunks : List (List userCompatability)) :
    ∀ (nth k : Nat) (ck : List userCompatability) (err : PgError),
      chunks[k]? = some ck →
      (∀ j, j < k →
        ∀ c, chunks[j]? = some c → conn.insertCompatibilities (nth + j) c = .ok ()) →
      conn.insertCompatibilities (nth + k) ck = .error err →
      execChunks conn chunks nth = (chunks.take (k + 1), some err) := by
  induction chunks with
  | nil => intro nth k ck err h; simp at h
  | cons c rest ih =>
    intro nth k ck err hk hbefore hfail
    cases k with
    | zero =>
      simp only [List.getElem?_cons_zero, Option.some.injEq] at hk
      subst hk
      simp only [Nat.add_zero] at hfail
      simp [execChunks, hfail]
    | succ k =>
      have h0 := hbefore 0 (by omega) c (by simp)
      simp only [Nat.add_zero] at h0
      have hrest := ih (nth + 1) k ck err (by simpa using hk)
        (fun j hj c1 hc1 => by
          have := hbefore (j + 1) (by omega) c1 (by simpa using hc1)
          rwa [show nth + (j + 1) = nth + 1 + j by omega] at this)
        (by rwa [show nth + (k + 1) = nth + 1 + k by omega] at hfail)
      simp only [execChunks, h0, hrest, List.take_succ_cons]

theorem setCompatibility_eq (fuel : Nat) (cs : List userCompatability) (conn : Conn)
    (hfuel : 10 ≤ fuel ∧ cs.length ≤ fuel) :
    setCompatibility fuel cs conn =
      match execChunks conn (chunksOf cs) 0 with
      | (issued, none) => ⟨issued, .success⟩
      | (issued, some err) => ⟨issued, .failure err⟩ := by
  unfold setCompatibility
  split_ifs with h0
  · have : cs = [] := List.length_eq_zero.mp h0
    subst this
    rfl
  · simp only [chunkLoop_chunksOf cs fuel hfuel]

/-! ## Page statement: auxiliary facts -/

theorem findInterestedIds_tableConn (g i : String) (c : Int) (nth : Nat) (T : List UserRow) :
    findInterestedIds g i c nth (tableConn T) = .ok ((findInterestedIdsQuery g i c).eval T) :=
  rfl

theorem selects_bounded (g i : String) (c : Int) (hc : 0 < c) (u : UserRow) :
    (findInterestedIdsQuery g i c).selects u
      = ((findInterestedIdsQuery g i (-1)).selects u && decide (u.created_at < c)) := by
  simp [findInterestedIdsQuery, UsersQuery.selects, hc]

theorem selects_unbounded (g i : String) (c : Int) (hc : c ≤ 0) (u : UserRow) :
    (findInterestedIdsQuery g i c).selects u
      = (decide (u.interested_in = g) && decide (u.gender = i)) := by
  have : ¬ c > 0 := by omega
  simp [findInterestedIdsQuery, UsersQuery.selects, this]

theorem eval_bounded (g i : String) (c : Int) (hc : 0 < c) (T : List UserRow) :
    (findInterestedIdsQuery g i c).eval T
      = (findInterestedIdsQuery g i (-1)).eval (T.filter (fun u => decide (u.created_at < c))) := by
  unfold UsersQuery.eval
  rw [List.filter_filter]
  congr 4
  funext u
  exact selects_bounded g i c hc u

theorem eval_unbounded (g i : String) (c : Int) (hc : c ≤ 0) (T : List UserRow) :
    (findInterestedIdsQuery g i c).eval T = (findInterestedIdsQuery g i (-1)).eval T := by
  unfold UsersQuery.eval
  congr 4
  funext u
  rw [selects_unbounded g i c hc u, selects_unbounded g i (-1) (by norm_num) u]

theorem created_at_lt_of_mem_eval (g i : String) (c : Int) (hc : 0 < c) (T : List UserRow)
    (r : userInterest) (hr : r ∈ (findInterestedIdsQuery g i c).eval T) : r.created_at < c := by
  unfold UsersQuery.eval at hr
  rw [List.mem_map] at hr
  obtain ⟨u, hu, rfl⟩ := hr
  have hu2 := (List.perm_insertionSort _ _).subset (List.mem_of_mem_take hu)
  rw [List.mem_filter, selects_bounded g i c hc] at hu2
  have h2 := hu2.2
  simp only [Bool.and_eq_true, decide_eq_true_eq] at h2
  exact h2.2

/-! ## Scorer: further facts -/

theorem index_of_mem (A : GoMap) (e : Sigma fun _ : String => String) (he : e ∈ A.entries) :
    A.index e.1 = e.2 := by
  have h : e.2 ∈ A.lookup e.1 := AList.mem_lookup_iff.mpr (by cases e; exact he)
  unfold GoMap.index
  rw [Option.mem_def.mp h]
  rfl

theorem matchCount_self (A : GoMap) : matchCount A A = A.entries.length := by
  unfold matchCount
  rw [List.countP_eq_length]
  intro e he
  simp [index_of_mem A e he]

theorem matchCount_congr (A B B' : GoMap)
    (h : ∀ q, q ∈ A.keys → B.lookup q = B'.lookup q) : matchCount A B = matchCount A B' := by
  unfold matchCount
  apply List.countP_congr
  intro e he
  have hq : e.1 ∈ A.keys := by
    unfold AList.keys List.keys
    exact List.mem_map_of_mem Sigma.fst he
  simp only [GoMap.index, h e.1 hq]

/-! ## Matching engine: further facts -/

theorem serves_of_servesThenEmpty (conn : Conn) (g i : String) (ps : List Page) :
    ∀ (nth : Nat) (cur : Int), ServesThenEmpty conn g i ps nth cur → Serves conn g i ps nth cur := by
  induction ps with
  | nil => intro nth cur _; trivial
  | cons p ps ih =>
    intro nth cur h
    exact ⟨h.1, h.2.1, h.2.2.1, ih _ _ h.2.2.2⟩

/-- The scan over served pages followed by an empty page, with fewer
qualifiers than the cap leaves room for, returns all of them. -/
theorem scanLoop_exhaust (u g i : String) (A : GoMap) (conn : Conn) (ps : List Page) :
    ∀ (nth : Nat) (cur fm : Int) (cs : List userCompatability) (fuel : Nat),
    ServesThenEmpty conn g i ps nth cur → fm < 100 →
    fm + (qualifiersOfPages u A ps).length < 100 → ps.length < fuel →
    (scanLoop u g i A conn fuel nth cur fm cs).outcome
      = .returned (cs ++ qualifiersOfPages u A ps) := by
  induction ps with
  | nil =>
    intro nth cur fm cs fuel hs _ _ hfuel
    obtain ⟨fuel, rfl⟩ : ∃ n, fuel = n + 1 := ⟨fuel - 1, by simp at hfuel; omega⟩
    rw [scanLoop_page_empty u g i A conn fuel nth cur fm cs hs]
    simp [qualifiersOfPages]
  | cons p ps ih =>
    intro nth cur fm cs fuel hs hfm hq hfuel
    obtain ⟨hne, hpage, hbulk, hrest⟩ := hs
    obtain ⟨fuel, rfl⟩ : ∃ n, fuel = n + 1 := ⟨fuel - 1, by simp at hfuel; omega⟩
    obtain ⟨f1, f2, f3, f4⟩ := scoreUsers_flow u A p.2 (p.1.map fun e => e.id) fm cs
    obtain ⟨q1, q2⟩ := scoreUsers_qualifiers u A p.2 (p.1.map fun e => e.id) fm cs
    rcases hsu : scoreUsers u A p.2 (p.1.map fun e => e.id) fm cs with ⟨tr, flow⟩
    rw [hsu] at f1 f2 f3 f4 q1 q2
    simp only [] at f1 f2 f3 f4 q1 q2
    simp only [qualifiersOfPages, List.length_append] at hq
    push_cast at hq
    cases flow with
    | panic f => exact absurd rfl (f3 f)
    | ret cs1 =>
      exfalso
      obtain ⟨_, b, _, _⟩ := f2 cs1 rfl
      have hle := q1.length_le
      omega
    | fallThrough fm1 cs1 =>
      obtain ⟨last, hlast⟩ := exists_getLast p.1 hne
      rw [scanLoop_fall u g i A conn fuel nth cur fm cs p.1 p.2 tr fm1 cs1 last
        hpage hlast hbulk hsu]
      obtain ⟨a, b, c⟩ := f1 fm1 cs1 rfl
      have hq2 := q2 fm1 cs1 rfl
      have hcur : cursorAfter p cur = last.created_at := by
        simp [cursorAfter, hlast]
      rw [hcur] at hrest
      simp only []
      rw [ih (nth + 1) last.created_at fm1 cs1 fuel hrest (c hfm)
        (by rw [b, hq2]; omega) (by simp at hfuel; omega), a, hq2]
      simp [qualifiersOfPages]

/-- The outcome of a run whose profile and answers load, over a source that
serves pages and then an empty page, or pages holding 100 qualifiers. -/
theorem scanLoop_result (u g i : String) (A : GoMap) (conn : Conn) (ps : List Page)
    (fuel : Nat)
    (hsrc : ServesThenEmpty conn g i ps 0 (-1) ∨
      (Serves conn g i ps 0 (-1) ∧ 100 ≤ (qualifiersOfPages u A ps).length))
    (hfuel : ps.length < fuel) :
    (scanLoop u g i A conn fuel 0 (-1) 0 []).outcome
      = .returned ((qualifiersOfPages u A ps).take 100) := by
  have hcap : Serves conn g i ps 0 (-1) → 100 ≤ (qualifiersOfPages u A ps).length →
      (scanLoop u g i A conn fuel 0 (-1) 0 []).outcome
        = .returned ((qualifiersOfPages u A ps).take 100) := by
    intro hs hq
    obtain ⟨pre, c, _, e2, e3, e4⟩ :=
      scanLoop_cap u g i A conn ps 0 (-1) 0 [] fuel hs (by norm_num) (by simpa using hq)
        (by omega)
    rw [e2, prefix_eq_take e4]
    have hlen : (appendedOf (pre ++ [Event.append c])).length = 100 := by
      have := e3
      omega
    rw [hlen]
    simp
  rcases hsrc with hs | ⟨hs, hq⟩
  · by_cases hq : 100 ≤ (qualifiersOfPages u A ps).length
    · exact hcap (serves_of_servesThenEmpty conn g i ps 0 (-1) hs) hq
    · rw [scanLoop_exhaust u g i A conn ps 0 (-1) 0 [] fuel hs (by norm_num)
        (by push_neg at hq; simpa using hq) hfuel]
      rw [List.take_of_length_le (by omega)]
      simp
  · exact hcap hs hq

theorem qualifiers_append (u : String) (A : GoMap) (ua : List userAnswer)
    (ids1 ids2 : List String) :
    qualifiers u A ua (ids1 ++ ids2) = qualifiers u A ua ids1 ++ qualifiers u A ua ids2 := by
  simp [qualifiers]

theorem qualifiersOfPages_append (u : String) (A : GoMap) (ps1 ps2 : List Page) :
    qualifiersOfPages u A (ps1 ++ ps2)
      = qualifiersOfPages u A ps1 ++ qualifiersOfPages u A ps2 := by
  induction ps1 with
  | nil => simp [qualifiersOfPages]
  | cons p ps ih => simp [qualifiersOfPages, ih]

theorem scoreValue_self (A : GoMap) (hA : A.entries ≠ []) : scoreValue A A = 100 := by
  unfold scoreValue
  rw [matchCount_self, Nat.mul_div_cancel _ (List.length_pos.mpr hA)]
  rfl

@[simp] theorem pageRequests_nil : pageRequests [] = [] := rfl
@[simp] theorem pageRequests_cons_append (c : userCompatability) (tr : List Event) :
    pageRequests (.append c :: tr) = pageRequests tr := rfl
@[simp] theorem pageRequests_cons_score (i : String) (p : Int) (tr : List Event) :
    pageRequests (.score i p :: tr) = pageRequests tr := rfl
@[simp] theorem pageRequests_cons_page (g i : String) (c : Int)
    (r : Except PgError (List userInterest)) (tr : List Event) :
    pageRequests (.findInterestedIds g i c r :: tr) = (c, r) :: pageRequests tr := rfl
@[simp] theorem pageRequests_cons_bulk (ids : List String)
    (r : Except PgError (List userAnswer)) (tr : List Event) :
    pageRequests (.findAllAnswersForUsers ids r :: tr) = pageRequests tr := rfl
@[simp] theorem pageRequests_cons_info (u : String)
    (r : Except PgError (String × String)) (tr : List Event) :
    pageRequests (.getUserInfoById u r :: tr) = pageRequests tr := rfl
@[simp] theorem pageRequests_cons_answers (u : String)
    (r : Except PgError GoMap) (tr : List Event) :
    pageRequests (.findAllAnswersForUser u r :: tr) = pageRequests tr := rfl
@[simp] theorem pageRequests_app (a b : List Event) :
    pageRequests (a ++ b) = pageRequests a ++ pageRequests b := by
  simp [pageRequests]

theorem pageRequests_scoreUsers (u : String) (A : GoMap) (ua : List userAnswer)
    (ids : List String) (fm : Int) (cs : List userCompatability) :
    pageRequests (scoreUsers u A ua ids fm cs).1 = [] := by
  induction ids generalizing fm cs with
  | nil => simp [scoreUsers_nil]
  | cons id rest ih =>
    rw [scoreUsers_cons]
    split_ifs with h1 h2
    · simp
    · simp [ih]
    · simp [ih]

theorem scanLoop_chain (u g i : String) (A : GoMap) (conn : Conn) (fuel nth : Nat)
    (cur fm : Int) (cs : List userCompatability) :
    CursorChain cur (pageRequests (scanLoop u g i A conn fuel nth cur fm cs).trace) := by
  induction fuel generalizing nth cur fm cs with
  | zero => simp [scanLoop_zero, CursorChain]
  | succ fuel ih =>
    cases hres : findInterestedIds g i cur nth conn with
    | error err =>
      rw [scanLoop_page_error u g i A conn fuel nth cur fm cs err hres]
      exact ⟨rfl, Or.inl rfl⟩
    | ok users =>
      by_cases hne : users = []
      · subst hne
        rw [scanLoop_page_empty u g i A conn fuel nth cur fm cs hres]
        exact ⟨rfl, Or.inl rfl⟩
      · cases hres2 : findAllAnswersForUsers (users.map fun e => e.id) nth conn with
        | error err =>
          rw [scanLoop_bulk_error u g i A conn fuel nth cur fm cs users err hres hne hres2]
          exact ⟨rfl, Or.inl rfl⟩
        | ok usersAnswers =>
          obtain ⟨_, _, f3, _⟩ :=
            scoreUsers_flow u A usersAnswers (users.map fun e => e.id) fm cs
          have hpr := pageRequests_scoreUsers u A usersAnswers (users.map fun e => e.id) fm cs
          rcases hsu : scoreUsers u A usersAnswers (users.map fun e => e.id) fm cs
            with ⟨tr, flow⟩
          rw [hsu] at f3 hpr
          simp only [] at f3 hpr
          cases flow with
          | ret cs1 =>
            rw [scanLoop_ret u g i A conn fuel nth cur fm cs users usersAnswers tr cs1
              hres hne hres2 hsu]
            simp only [pageRequests_cons_page, pageRequests_cons_bulk, hpr]
            exact ⟨rfl, Or.inl rfl⟩
          | panic f => exact absurd rfl (f3 f)
          | fallThrough fm1 cs1 =>
            obtain ⟨last, hlast⟩ := exists_getLast users hne
            rw [scanLoop_fall u g i A conn fuel nth cur fm cs users usersAnswers tr fm1 cs1
              last hres hlast hres2 hsu]
            simp only [List.cons_append, pageRequests_cons_page, pageRequests_cons_bulk,
              pageRequests_app, hpr, List.nil_append]
            exact ⟨rfl, Or.inr ⟨users, last, rfl, hlast, ih (nth + 1) last.created_at fm1 cs1⟩⟩

theorem chain_head (cur : Int) (reqs : List (Int × Except PgError (List userInterest)))
    (h : CursorChain cur reqs) (c : Int) (r : Except PgError (List userInterest))
    (h0 : reqs[0]? = some (c, r)) : c = cur := by
  cases reqs with
  | nil => simp at h0
  | cons x rest =>
    obtain ⟨c0, r0⟩ := x
    simp only [List.getElem?_cons_zero, Option.some.injEq, Prod.mk.injEq] at h0
    rw [← h0.1]
    exact h.1

theorem chain_step (k : Nat) :
    ∀ (cur : Int) (reqs : List (Int × Except PgError (List userInterest))),
    CursorChain cur reqs →
    ∀ (c : Int) (r : Except PgError (List userInterest)) (c1 : Int)
      (r1 : Except PgError (List userInterest)),
    reqs[k]? = some (c, r) → reqs[k + 1]? = some (c1, r1) →
    ∃ users last, r = .ok users ∧ users.getLast? = some last ∧ c1 = last.created_at := by
  induction k with
  | zero =>
    intro cur reqs h c r c1 r1 h0 h1
    cases reqs with
    | nil => simp at h0
    | cons x rest =>
      obtain ⟨c0, r0⟩ := x
      simp only [List.getElem?_cons_zero, Option.some.injEq, Prod.mk.injEq] at h0
      simp only [List.getElem?_cons_succ] at h1
      rcases h.2 with hnil | ⟨users, last, hr, hlast, hrest⟩
      · rw [hnil] at h1
        simp at h1
      · exact ⟨users, last, by rw [← h0.2, hr], hlast, chain_head _ rest hrest c1 r1 h1⟩
  | succ k ih =>
    intro cur reqs h c r c1 r1 h0 h1
    cases reqs with
    | nil => simp at h0
    | cons x rest =>
      obtain ⟨c0, r0⟩ := x
      simp only [List.getElem?_cons_succ] at h0 h1
      rcases h.2 with hnil | ⟨users, last, hr, hlast, hrest⟩
      · rw [hnil] at h0
        simp at h0
      · exact ih _ rest hrest c r c1 r1 h0 h1

theorem getLast?_append_some (l1 l2 : List Event) (e : Event) (h : l2.getLast? = some e) :
    (l1 ++ l2).getLast? = some e := by
  rw [List.getLast?_append, h]
  rfl

/-- How a scan that returns ended: on the append that reached the cap, on an
empty page, or on a failed call. -/
theorem scanLoop_end (u g i : String) (A : GoMap) (conn : Conn) (fuel nth : Nat)
    (cur fm : Int) (cs rs : List userCompatability) (hfm : fm < 100)
    (h : (scanLoop u g i A conn fuel nth cur fm cs).outcome = .returned rs) :
    ∃ e, (scanLoop u g i A conn fuel nth cur fm cs).trace.getLast? = some e ∧
      (((∃ c, e = .append c) ∧
          rs = cs ++ appendedOf (scanLoop u g i A conn fuel nth cur fm cs).trace ∧
          fm + (appendedOf (scanLoop u g i A conn fuel nth cur fm cs).trace).length = 100) ∨
       ((∃ c, e = .findInterestedIds g i c (.ok [])) ∧
          rs = cs ++ appendedOf (scanLoop u g i A conn fuel nth cur fm cs).trace ∧
          fm + (appendedOf (scanLoop u g i A conn fuel nth cur fm cs).trace).length < 100) ∨
       (e.failed = true ∧ rs = [])) := by
  induction fuel generalizing nth cur fm cs with
  | zero =>
    rw [scanLoop_zero] at h
    cases h
  | succ fuel ih =>
    cases hres : findInterestedIds g i cur nth conn with
    | error err =>
      rw [scanLoop_page_error u g i A conn fuel nth cur fm cs err hres] at h ⊢
      simp only [Outcome.returned.injEq] at h
      exact ⟨_, rfl, Or.inr (Or.inr ⟨rfl, h.symm⟩)⟩
    | ok users =>
      by_cases hne : users = []
      · subst hne
        rw [scanLoop_page_empty u g i A conn fuel nth cur fm cs hres] at h ⊢
        simp only [Outcome.returned.injEq] at h
        refine ⟨_, rfl, Or.inr (Or.inl ⟨⟨cur, rfl⟩, ?_, ?_⟩)⟩
        · simp [h]
        · simpa using hfm
      · cases hres2 : findAllAnswersForUsers (users.map fun e => e.id) nth conn with
        | error err =>
          rw [scanLoop_bulk_error u g i A conn fuel nth cur fm cs users err hres hne hres2]
            at h ⊢
          simp only [Outcome.returned.injEq] at h
          exact ⟨_, rfl, Or.inr (Or.inr ⟨rfl, h.symm⟩)⟩
        | ok usersAnswers =>
          obtain ⟨f1, f2, f3, _⟩ :=
            scoreUsers_flow u A usersAnswers (users.map fun e => e.id) fm cs
          rcases hsu : scoreUsers u A usersAnswers (users.map fun e => e.id) fm cs
            with ⟨tr, flow⟩
          rw [hsu] at f1 f2 f3
          simp only [] at f1 f2 f3
          cases flow with
          | panic f => exact absurd rfl (f3 f)
          | ret cs1 =>
            rw [scanLoop_ret u g i A conn fuel nth cur fm cs users usersAnswers tr cs1
              hres hne hres2 hsu] at h ⊢
            simp only [Outcome.returned.injEq] at h
            obtain ⟨a, _, c, pre, x, d⟩ := f2 cs1 rfl
            refine ⟨.append x, ?_, Or.inl ⟨⟨x, rfl⟩, ?_, ?_⟩⟩
            · rw [d]
              exact List.getLast?_concat
                (.findInterestedIds g i cur (.ok users)
                  :: .findAllAnswersForUsers (users.map fun e => e.id) (.ok usersAnswers) :: pre)
            · rw [← h, a]
              simp
            · simpa using c hfm
          | fallThrough fm1 cs1 =>
            obtain ⟨last, hlast⟩ := exists_getLast users hne
            rw [scanLoop_fall u g i A conn fuel nth cur fm cs users usersAnswers tr fm1 cs1
              last hres hlast hres2 hsu] at h ⊢
            obtain ⟨a, b, c⟩ := f1 fm1 cs1 rfl
            obtain ⟨e, he, hcase⟩ := ih (nth + 1) last.created_at fm1 cs1 (c hfm) h
            refine ⟨e, getLast?_append_some
              (.findInterestedIds g i cur (.ok users)
                :: .findAllAnswersForUsers (users.map fun e => e.id) (.ok usersAnswers) :: tr)
              _ e he, ?_⟩
            simp only [appendedOf_app, appendedOf_cons_page, appendedOf_cons_bulk,
              List.length_append]
            rcases hcase with ⟨h1, h2, h3⟩ | ⟨h1, h2, h3⟩ | h1
            · refine Or.inl ⟨h1, ?_, ?_⟩
              · rw [h2, a]
                simp
              · push_cast
                omega
            · refine Or.inr (Or.inl ⟨h1, ?_, ?_⟩)
              · rw [h2, a]
                simp
              · push_cast
                omega
            · exact Or.inr (Or.inr h1)

/-! ## Recorded scores and row streams -/

/-- The scores recorded by the loop over a page are the scorer's results for
candidates of the page, and for all of them, in order, when the loop falls
through. -/
theorem scoreUsers_scored (u : String) (A : GoMap) (ua : List userAnswer) (ids : List String)
    (fm : Int) (cs : List userCompatability) :
    (∀ s ∈ scoredOf (scoreUsers u A ua ids fm cs).1,
      s.1 ∈ ids ∧ getCompatibilityPercentBetween A (answersOfUser ua s.1) = .ok s.2) ∧
    (∀ fm1 cs1, (scoreUsers u A ua ids fm cs).2 = .fallThrough fm1 cs1 →
      (scoredOf (scoreUsers u A ua ids fm cs).1).map
          (fun s => (s.1, (Except.ok s.2 : Except Fault Int)))
        = ids.map (fun id => (id, getCompatibilityPercentBetween A (answersOfUser ua id)))) := by
  induction ids generalizing fm cs with
  | nil => simp [scoreUsers_nil]
  | cons id rest ih =>
    rw [scoreUsers_cons]
    split_ifs with h1 h2
    · refine ⟨?_, by simp⟩
      intro s hs
      simp only [scoredOf_cons_score, scoredOf_cons_append, scoredOf_nil,
        List.mem_singleton] at hs
      subst hs
      exact ⟨List.mem_cons_self _ _, score_eq A _⟩
    · obtain ⟨a, b⟩ := ih (fm + 1) (cs ++ [⟨u, id, scoreValue A (answersOfUser ua id)⟩])
      refine ⟨?_, ?_⟩
      · intro s hs
        simp only [scoredOf_cons_score, scoredOf_cons_append, List.mem_cons] at hs
        rcases hs with hs | hs
        · subst hs
          exact ⟨List.mem_cons_self _ _, score_eq A _⟩
        · exact ⟨List.mem_cons_of_mem _ (a s hs).1, (a s hs).2⟩
      · intro fm1 cs1 h
        simp only [scoredOf_cons_score, scoredOf_cons_append, List.map_cons]
        rw [b fm1 cs1 h, score_eq A (answersOfUser ua id)]
    · obtain ⟨a, b⟩ := ih fm cs
      refine ⟨?_, ?_⟩
      · intro s hs
        simp only [scoredOf_cons_score, List.mem_cons] at hs
        rcases hs with hs | hs
        · subst hs
          exact ⟨List.mem_cons_self _ _, score_eq A _⟩
        · exact ⟨List.mem_cons_of_mem _ (a s hs).1, (a s hs).2⟩
      · intro fm1 cs1 h
        simp only [scoredOf_cons_score, List.map_cons]
        rw [b fm1 cs1 h, score_eq A (answersOfUser ua id)]

/-- Every score recorded in a scan is the scorer's result for the subject's
map and the map built for the candidate from the records of a bulk fetch of
the scan that asked for the candidate. -/
theorem scanLoop_scored (u g i : String) (A : GoMap) (conn : Conn) (fuel nth : Nat)
    (cur fm : Int) (cs : List userCompatability) :
    ∀ s ∈ scoredOf (scanLoop u g i A conn fuel nth cur fm cs).trace,
      ∃ ids ua, Event.findAllAnswersForUsers ids (.ok ua)
          ∈ (scanLoop u g i A conn fuel nth cur fm cs).trace ∧
        s.1 ∈ ids ∧ getCompatibilityPercentBetween A (answersOfUser ua s.1) = .ok s.2 := by
  induction fuel generalizing nth cur fm cs with
  | zero => simp [scanLoop_zero]
  | succ fuel ih =>
    cases hres : findInterestedIds g i cur nth conn with
    | error err =>
      rw [scanLoop_page_error u g i A conn fuel nth cur fm cs err hres]
      simp
    | ok users =>
      by_cases hne : users = []
      · subst hne
        rw [scanLoop_page_empty u g i A conn fuel nth cur fm cs hres]
        simp
      · cases hres2 : findAllAnswersForUsers (users.map fun e => e.id) nth conn with
        | error err =>
          rw [scanLoop_bulk_error u g i A conn fuel nth cur fm cs users err hres hne hres2]
          simp
        | ok usersAnswers =>
          obtain ⟨_, _, f3, _⟩ :=
            scoreUsers_flow u A usersAnswers (users.map fun e => e.id) fm cs
          obtain ⟨sc, _⟩ := scoreUsers_scored u A usersAnswers (users.map fun e => e.id) fm cs
          rcases hsu : scoreUsers u A usersAnswers (users.map fun e => e.id) fm cs
            with ⟨tr, flow⟩
          rw [hsu] at f3 sc
          simp only [] at f3 sc
          cases flow with
          | panic f => exact absurd rfl (f3 f)
          | ret cs1 =>
            rw [scanLoop_ret u g i A conn fuel nth cur fm cs users usersAnswers tr cs1
              hres hne hres2 hsu]
            intro s hs
            simp only [scoredOf_cons_page, scoredOf_cons_bulk] at hs
            exact ⟨users.map fun e => e.id, usersAnswers,
              List.mem_cons_of_mem _ (List.mem_cons_self _ _), (sc s hs).1, (sc s hs).2⟩
          | fallThrough fm1 cs1 =>
            obtain ⟨last, hlast⟩ := exists_getLast users hne
            rw [scanLoop_fall u g i A conn fuel nth cur fm cs users usersAnswers tr fm1 cs1
              last hres hlast hres2 hsu]
            intro s hs
            simp only [List.cons_append, scoredOf_cons_page, scoredOf_cons_bulk, scoredOf_app,
              List.mem_append] at hs
            rcases hs with hs | hs
            · exact ⟨users.map fun e => e.id, usersAnswers,
                List.mem_cons_of_mem _ (List.mem_cons_self _ _), (sc s hs).1, (sc s hs).2⟩
            · obtain ⟨ids, ua, hmem, h1, h2⟩ := ih (nth + 1) last.created_at fm1 cs1 s hs
              exact ⟨ids, ua, List.mem_append_right _ hmem, h1, h2⟩

/-- Over served pages followed by an empty page and holding fewer qualifiers
than the cap leaves room for, the scan scores every candidate of every page
and appends every qualifier. -/
theorem scanLoop_exhaust_trace (u g i : String) (A : GoMap) (conn : Conn) (ps : List Page) :
    ∀ (nth : Nat) (cur fm : Int) (cs : List userCompatability) (fuel : Nat),
    ServesThenEmpty conn g i ps nth cur → fm < 100 →
    fm + (qualifiersOfPages u A ps).length < 100 → ps.length < fuel →
    (scoredOf (scanLoop u g i A conn fuel nth cur fm cs).trace).map
        (fun s => (s.1, (Except.ok s.2 : Except Fault Int))) = candidateScores A ps ∧
    appendedOf (scanLoop u g i A conn fuel nth cur fm cs).trace = qualifiersOfPages u A ps := by
  induction ps with
  | nil =>
    intro nth cur fm cs fuel hs _ _ hfuel
    obtain ⟨fuel, rfl⟩ : ∃ n, fuel = n + 1 := ⟨fuel - 1, by simp at hfuel; omega⟩
    rw [scanLoop_page_empty u g i A conn fuel nth cur fm cs hs]
    simp [qualifiersOfPages, candidateScores]
  | cons p ps ih =>
    intro nth cur fm cs fuel hs hfm hq hfuel
    obtain ⟨hne, hpage, hbulk, hrest⟩ := hs
    obtain ⟨fuel, rfl⟩ : ∃ n, fuel = n + 1 := ⟨fuel - 1, by simp at hfuel; omega⟩
    obtain ⟨f1, f2, f3, f4⟩ := scoreUsers_flow u A p.2 (p.1.map fun e => e.id) fm cs
    obtain ⟨q1, q2⟩ := scoreUsers_qualifiers u A p.2 (p.1.map fun e => e.id) fm cs
    obtain ⟨_, s2⟩ := scoreUsers_scored u A p.2 (p.1.map fun e => e.id) fm cs
    rcases hsu : scoreUsers u A p.2 (p.1.map fun e => e.id) fm cs with ⟨tr, flow⟩
    rw [hsu] at f1 f2 f3 f4 q1 q2 s2
    simp only [] at f1 f2 f3 f4 q1 q2 s2
    simp only [qualifiersOfPages, List.length_append] at hq
    push_cast at hq
    cases flow with
    | panic f => exact absurd rfl (f3 f)
    | ret cs1 =>
      exfalso
      obtain ⟨_, b, _, _⟩ := f2 cs1 rfl
      have hle := q1.length_le
      omega
    | fallThrough fm1 cs1 =>
      obtain ⟨last, hlast⟩ := exists_getLast p.1 hne
      rw [scanLoop_fall u g i A conn fuel nth cur fm cs p.1 p.2 tr fm1 cs1 last
        hpage hlast hbulk hsu]
      obtain ⟨a, b, c⟩ := f1 fm1 cs1 rfl
      have hq2 := q2 fm1 cs1 rfl
      have hs2 := s2 fm1 cs1 rfl
      have hcur : cursorAfter p cur = last.created_at := by
        simp [cursorAfter, hlast]
      rw [hcur] at hrest
      obtain ⟨i1, i2⟩ := ih (nth + 1) last.created_at fm1 cs1 fuel hrest (c hfm)
        (by rw [b, hq2]; omega) (by simp at hfuel; omega)
      refine ⟨?_, ?_⟩
      · simp only [List.cons_append, scoredOf_cons_page, scoredOf_cons_bulk, scoredOf_app,
          List.map_append, candidateScores]
        rw [hs2, i1, List.map_map]
        rfl
      · simp only [List.cons_append, appendedOf_cons_page, appendedOf_cons_bulk, appendedOf_app,
          qualifiersOfPages]
        rw [hq2, i2]

theorem readRows_ignores_err {α : Type} (scanned : List (Except PgError α))
    (err : Option PgError) :
    readRows (.ok ⟨scanned, err⟩) = readRows (.ok ⟨scanned, none⟩) := rfl

/-- A run in which a function of `main.go` returned an error (the profile,
the subject's answers, a page or a bulk fetch) returns the empty sequence,
whatever had been appended before. -/
theorem returned_nil_of_failed_call (fuel : Nat) (userId : String) (conn : Conn)
    (h : ∃ e ∈ (getCompatibility fuel userId conn).trace, e.failed = true) :
    (getCompatibility fuel userId conn).outcome = .returned [] := by
  cases h1 : getUserInfoById userId conn with
  | error err =>
    rw [getCompatibility_info_error fuel userId conn err h1]
  | ok gi =>
    obtain ⟨g, i⟩ := gi
    cases h2 : findAllAnswersForUser userId conn with
    | error err =>
      rw [getCompatibility_answers_error fuel userId g i conn err h1 h2]
    | ok A =>
      rw [getCompatibility_scan fuel userId g i conn A h1 h2] at h ⊢
      obtain ⟨_, _, c, _⟩ := scanLoop_inv userId g i A conn fuel 0 (-1) 0 []
      apply c
      obtain ⟨e, he, hf⟩ := h
      simp only [List.mem_cons] at he
      rcases he with he | he | he
      · rw [he] at hf
        simp [Event.failed] at hf
      · rw [he] at hf
        simp [Event.failed] at hf
      · exact ⟨e, he, hf⟩

/-! ## Page statement: the text and its reading -/

theorem split_at_first {α : Type} (q : α) :
    ∀ (l1 l2 r1 r2 : List α), q ∉ l1 → q ∉ l2 → l1 ++ q :: r1 = l2 ++ q :: r2 →
      l1 = l2 ∧ r1 = r2 := by
  intro l1
  induction l1 with
  | nil =>
    intro l2 r1 r2 _ h2 h
    cases l2 with
    | nil => simpa using h
    | cons b l2 =>
      simp only [List.nil_append, List.cons_append, List.cons.injEq] at h
      exact absurd (h.1 ▸ List.mem_cons_self _ _) h2
  | cons a l1 ih =>
    intro l2 r1 r2 h1 h2 h
    cases l2 with
    | nil =>
      simp only [List.nil_append, List.cons_append, List.cons.injEq] at h
      exact absurd (h.1 ▸ List.mem_cons_self _ _) h1
    | cons b l2 =>
      simp only [List.cons_append, List.cons.injEq] at h
      obtain ⟨e1, e2⟩ := ih l2 r1 r2 (fun hm => h1 (List.mem_cons_of_mem _ hm))
        (fun hm => h2 (List.mem_cons_of_mem _ hm)) h.2
      exact ⟨by rw [h.1, e1], e2⟩

/-- For values free of the quote character the text determines the two values:
the statement reads as the comparison of each column with the whole value. -/
theorem findInterestedIdsText_inj (g1 i1 g2 i2 : String) (createdAt : Int)
    (hg1 : quoteFree g1) (hi1 : quoteFree i1) (hg2 : quoteFree g2) (hi2 : quoteFree i2)
    (h : findInterestedIdsText g1 i1 createdAt = findInterestedIdsText g2 i2 createdAt) :
    g1 = g2 ∧ i1 = i2 := by
  have hd := congrArg String.data h
  simp only [findInterestedIdsText, String.data_append, List.append_assoc, quoteString,
    String.singleton, String.data_push] at hd
  have h3 := List.append_cancel_left (List.append_cancel_left (List.append_cancel_left hd))
  simp only [List.nil_append, List.singleton_append, List.cons.injEq, true_and] at h3
  obtain ⟨eg, hr⟩ := split_at_first quoteChar g1.data g2.data _ _ hg1 hg2 h3
  have h4 := List.append_cancel_left hr
  simp only [List.cons.injEq, true_and] at h4
  obtain ⟨ei, _⟩ := split_at_first quoteChar i1.data i2.data _ _ hi1 hi2 h4
  exact ⟨String.ext eg, String.ext ei⟩

/-- With a quote in a value the text does not determine the values: two
different pairs give the same statement. -/
theorem findInterestedIdsText_collision :
    findInterestedIdsText "a" quotedInterest (-1) = findInterestedIdsText quotedGender "c" (-1) ∧
    ("a", quotedInterest) ≠ (quotedGender, "c") ∧
    ¬ quoteFree quotedInterest ∧ ¬ quoteFree quotedGender := by
  decide

/-! ## Claims -/

/-- C1 (evaluation at the input of the claim): with three subject answers of
which exactly one agrees, the code returns 33, the truncated quotient of
`100 * 1 / 3`, where the ceiling of the exact ratio is 34. -/
theorem C1_one_of_three_is_33 :
    matchCount threeAnswers oneAgreeing = 1 ∧ threeAnswers.entries.length = 3 ∧
    getCompatibilityPercentBetween threeAnswers oneAgreeing = .ok 33 ∧
    min 100 ⌈((100 * 1 : ℚ) / 3)⌉ = 34 := by
  refine ⟨by decide, by decide, by decide, ?_⟩
  have h : ⌈((100 * 1 : ℚ) / 3)⌉ = 34 := by
    rw [Int.ceil_eq_iff]
    constructor <;> norm_num
  rw [h]; decide

/-- C2 (evaluation at the failing input): the subject stores the empty answer
identifier for `q1`, the candidate answered nothing; reading the absent key
yields `""`, the entry counts as a match and the score is 100, not 0. -/
theorem C2_blank_answer_matches_absent :
    (∅ : GoMap).lookup "q1" = none ∧
    getCompatibilityPercentBetween blankAnswer ∅ = .ok 100 := by
  decide

/-- C3: for every pair of mappings, empty ones included, the scorer returns
(it does not fault) an integer between 0 and 100. -/
theorem C3_score_in_range (A B : GoMap) :
    ∃ r : Int, getCompatibilityPercentBetween A B = .ok r ∧ 0 ≤ r ∧ r ≤ 100 := by
  refine ⟨_, getCompatibilityPercentBetween_eq A B, by positivity, ?_⟩
  have hle := matchCount_le A B
  have hq : 100 * matchCount A B / A.entries.length ≤ 100 := by
    rcases Nat.eq_zero_or_pos A.entries.length with h0 | hpos
    · simp [h0]
    · apply Nat.div_le_of_le_mul
      nlinarith
  exact_mod_cast hq

/-- C4: in every run, finished or not, (1) the appends made are, in order,
exactly the scores recorded that are at least 40, each paired with the subject
and its candidate; (2) every score recorded is what
`getCompatibilityPercentBetween` returns for the subject's loaded map and the
map built for the candidate from the records of a bulk fetch of the run that
asked for that candidate; (3) the sequence returned is empty or the sequence
of the appends, so every returned percentage is at least 40. (4) When the
profile and the answers load and the source serves pages and then an empty
page, with fewer than 100 qualifiers, a run with fuel for these pages scores
every candidate of every page, in page order, and returns exactly those whose
score is at least 40. -/
theorem C4_threshold (fuel : Nat) (userId : String) (conn : Conn) :
    appendedOf (getCompatibility fuel userId conn).trace
      = (scoredOf (getCompatibility fuel userId conn).trace).filterMap
          (fun s => if s.2 ≥ 40 then some ⟨userId, s.1, s.2⟩ else none) ∧
    (∀ s ∈ scoredOf (getCompatibility fuel userId conn).trace,
      ∃ userOneAnswers userIds usersAnswers,
        findAllAnswersForUser userId conn = .ok userOneAnswers ∧
        Event.findAllAnswersForUsers userIds (.ok usersAnswers)
          ∈ (getCompatibility fuel userId conn).trace ∧
        s.1 ∈ userIds ∧
        getCompatibilityPercentBetween userOneAnswers (answersOfUser usersAnswers s.1)
          = .ok s.2) ∧
    (∀ rs, (getCompatibility fuel userId conn).outcome = .returned rs →
      (rs = [] ∨ rs = appendedOf (getCompatibility fuel userId conn).trace) ∧
      ∀ r ∈ rs, r.percentage ≥ 40) ∧
    (∀ gender interested_in userOneAnswers pages,
      getUserInfoById userId conn = .ok (gender, interested_in) →
      findAllAnswersForUser userId conn = .ok userOneAnswers →
      ServesThenEmpty conn gender interested_in pages 0 (-1) →
      (qualifiersOfPages userId userOneAnswers pages).length < 100 →
      pages.length < fuel →
      (scoredOf (getCompatibility fuel userId conn).trace).map
          (fun s => (s.1, (Except.ok s.2 : Except Fault Int)))
        = candidateScores userOneAnswers pages ∧
      (getCompatibility fuel userId conn).outcome
        = .returned ((scoredOf (getCompatibility fuel userId conn).trace).filterMap
            (fun s => if s.2 ≥ 40 then some ⟨userId, s.1, s.2⟩ else none))) := by
  have key : appendedOf (getCompatibility fuel userId conn).trace
      = (scoredOf (getCompatibility fuel userId conn).trace).filterMap (keepScored userId) ∧
    ∀ rs, (getCompatibility fuel userId conn).outcome = .returned rs →
      (rs = [] ∨ rs = appendedOf (getCompatibility fuel userId conn).trace) := by
    cases h : getUserInfoById userId conn with
    | error err =>
      rw [getCompatibility_info_error fuel userId conn err h]
      simp
    | ok gi =>
      obtain ⟨g, i⟩ := gi
      cases h2 : findAllAnswersForUser userId conn with
      | error err =>
        rw [getCompatibility_answers_error fuel userId g i conn err h h2]
        simp
      | ok A =>
        rw [getCompatibility_scan fuel userId g i conn A h h2]
        obtain ⟨a, b, _, _⟩ := scanLoop_inv userId g i A conn fuel 0 (-1) 0 []
        refine ⟨by simpa using a, ?_⟩
        intro rs hrs
        rcases b rs hrs with h0 | ⟨h1, _⟩
        · exact Or.inl h0
        · exact Or.inr (by simpa using h1)
  obtain ⟨k1, k2⟩ := key
  refine ⟨k1, ?_, fun rs hrs => ⟨k2 rs hrs, ?_⟩, ?_⟩
  · cases h : getUserInfoById userId conn with
    | error err =>
      rw [getCompatibility_info_error fuel userId conn err h]
      simp
    | ok gi =>
      obtain ⟨g, i⟩ := gi
      cases h2 : findAllAnswersForUser userId conn with
      | error err =>
        rw [getCompatibility_answers_error fuel userId g i conn err h h2]
        simp
      | ok A =>
        rw [getCompatibility_scan fuel userId g i conn A h h2]
        intro s hs
        simp only [scoredOf_cons_info, scoredOf_cons_answers] at hs
        obtain ⟨ids, ua, hmem, e1, e2⟩ :=
          scanLoop_scored userId g i A conn fuel 0 (-1) 0 [] s hs
        exact ⟨A, ids, ua, rfl, List.mem_cons_of_mem _ (List.mem_cons_of_mem _ hmem), e1, e2⟩
  · intro r hr
    rcases k2 rs hrs with h0 | h1
    · rw [h0] at hr
      cases hr
    · rw [h1, k1] at hr
      exact percentage_ge_of_mem_keepScored userId _ r hr
  · intro g i A pages hinfo hans hsrc hq hfuel
    have hrun := getCompatibility_scan fuel userId g i conn A hinfo hans
    obtain ⟨t1, t2⟩ := scanLoop_exhaust_trace userId g i A conn pages 0 (-1) 0 [] fuel hsrc
      (by norm_num) (by simpa using hq) hfuel
    have hout := scanLoop_exhaust userId g i A conn pages 0 (-1) 0 [] fuel hsrc
      (by norm_num) (by simpa using hq) hfuel
    refine ⟨?_, ?_⟩
    · rw [hrun]
      simpa using t1
    · have happ : appendedOf (getCompatibility fuel userId conn).trace
          = qualifiersOfPages userId A pages := by
        rw [hrun]
        simpa using t2
      have hk : (scoredOf (getCompatibility fuel userId conn).trace).filterMap
          (fun s => if s.2 ≥ 40 then some ⟨userId, s.1, s.2⟩ else none)
          = qualifiersOfPages userId A pages := by
        rw [← happ, k1]
        rfl
      rw [hk, hrun, hout]
      simp

set_option maxRecDepth 1000000 in
/-- C4 at the boundary: of two candidates on one page, the one scoring exactly
40 (25 of 61 answers agree) is scored, appended and returned, the one scoring
39 (24 of 61) is scored and left out. -/
theorem C4_threshold_witness :
    scoredOf (getCompatibility 2 "s" boundarySource).trace = [("c40", 40), ("c39", 39)] ∧
    (scoredOf (getCompatibility 2 "s" boundarySource).trace).map
        (fun s => (s.1, (Except.ok s.2 : Except Fault Int)))
      = candidateScores boundarySubject [boundaryPage] ∧
    (getCompatibility 2 "s" boundarySource).outcome = .returned [⟨"s", "c40", 40⟩] := by
  have h := (C4_threshold 2 "s" boundarySource).2.2.2 "m" "f" boundarySubject [boundaryPage]
    (by decide) rfl ⟨by decide, by decide, by decide, rfl⟩ (by decide) (by decide)
  have hs : scoredOf (getCompatibility 2 "s" boundarySource).trace
      = [("c40", 40), ("c39", 39)] := by decide
  refine ⟨hs, h.1, ?_⟩
  rw [h.2, hs]
  rfl

/-- C6 (evaluation at the failing input): the second page query breaks while
its rows are streamed, so that `conn.Query` returns no error and `rows.Err()`
holds it; `findInterestedIds`, which never reads `rows.Err()`, returns an empty
page without error, the loop ends as if the candidates were exhausted, and the
pair found on the first page is returned where the claim says the result is
empty. -/
theorem C6_stream_failure_keeps_partial :
    streamFailure.queryUsers 1 (findInterestedIdsQuery "m" "f" 7)
      = .ok ⟨[], some "connection lost"⟩ ∧
    findInterestedIds "m" "f" 7 1 streamFailure.helpers = .ok [] ∧
    (getCompatibility 3 "s" streamFailure.helpers).outcome = .returned [⟨"s", "c1", 100⟩] :=
  ⟨rfl, by decide, by decide⟩

/-- C5: when the profile and the answers load and the source serves, without
error, pages holding at least 100 qualifying candidates, every run with fuel
for these pages returns; the sequence returned has between 100 and 199
entries, and the last event of the run is the append of its last entry, the
hundredth: nothing is scored and no page is requested after it. -/
theorem C5_cap (userId gender interested_in : String) (conn : Conn) (userOneAnswers : GoMap)
    (pages : List Page) (fuel : Nat)
    (hinfo : getUserInfoById userId conn = .ok (gender, interested_in))
    (hans : findAllAnswersForUser userId conn = .ok userOneAnswers)
    (hpages : Serves conn gender interested_in pages 0 (-1))
    (hcap : 100 ≤ (qualifiersOfPages userId userOneAnswers pages).length)
    (hfuel : pages.length ≤ fuel) :
    ∃ rs pre c,
      (getCompatibility fuel userId conn).outcome = .returned rs ∧
      100 ≤ rs.length ∧ rs.length ≤ 199 ∧
      (getCompatibility fuel userId conn).trace = pre ++ [.append c] ∧
      (appendedOf pre).length = 99 ∧
      rs = appendedOf pre ++ [c] := by
  obtain ⟨pre, c, e1, e2, e3, _⟩ :=
    scanLoop_cap userId gender interested_in userOneAnswers conn pages 0 (-1) 0 [] fuel hpages
      (by norm_num) (by simpa using hcap) hfuel
  rw [getCompatibility_scan fuel userId gender interested_in conn userOneAnswers hinfo hans]
  have hlen : (appendedOf pre).length = 99 := by
    simp only [appendedOf_app, List.length_append] at e3
    simp at e3
    omega
  refine ⟨appendedOf pre ++ [c],
    .getUserInfoById userId (.ok (gender, interested_in))
      :: .findAllAnswersForUser userId (.ok userOneAnswers) :: pre, c, ?_, ?_, ?_, ?_, ?_, rfl⟩
  · rw [e2]
    simp
  · simp [hlen]
  · simp [hlen]
  · rw [e1]
    simp
  · simpa using hlen

set_option maxRecDepth 100000 in
/-- C5, on 150 candidates that all qualify, served in pages of 100 and 50. -/
theorem C5_cap_witness :
    100 ≤ (qualifiersOfPages "s" (GoMap.ofPairs [("q1", "a1")]) samplePages).length ∧
    ∃ rs pre c,
      (getCompatibility 2 "s" sampleConn).outcome = .returned rs ∧
      100 ≤ rs.length ∧ rs.length ≤ 199 ∧
      (getCompatibility 2 "s" sampleConn).trace = pre ++ [.append c] ∧
      (appendedOf pre).length = 99 ∧
      rs = appendedOf pre ++ [c] :=
  ⟨by decide,
   C5_cap "s" "m" "f" sampleConn (GoMap.ofPairs [("q1", "a1")]) samplePages 2
    (by decide) rfl
    ⟨by decide, by decide, by decide, by decide, by decide, by decide, trivial⟩
    (by decide) (by decide)⟩

/-- C7: when every insert succeeds, `setCompatibility` returns `nil` after
issuing `⌈n / 10⌉` inserts; insert number `k` carries the elements at positions
`10 k` to `min (10 k + 10) n - 1` in order, so every chunk but the last has 10
rows, the last between 1 and 10, and the chunks concatenated give back the
input. -/
theorem C7_chunked_inserts (fuel : Nat) (compatibilities : List userCompatability) (conn : Conn)
    (hfuel : 10 ≤ fuel ∧ compatibilities.length ≤ fuel)
    (hok : ∀ k, k < (compatibilities.length + 9) / 10 →
      conn.insertCompatibilities k (chunkAt compatibilities k) = .ok ()) :
    (setCompatibility fuel compatibilities conn).outcome = .success ∧
    (setCompatibility fuel compatibilities conn).issued.length
      = (compatibilities.length + 9) / 10 ∧
    (∀ k, k < (compatibilities.length + 9) / 10 →
      (setCompatibility fuel compatibilities conn).issued[k]?
        = some ((compatibilities.drop (10 * k)).take 10) ∧
      ((compatibilities.drop (10 * k)).take 10).length
        = min (10 * k + 10) compatibilities.length - 10 * k ∧
      1 ≤ ((compatibilities.drop (10 * k)).take 10).length ∧
      ((compatibilities.drop (10 * k)).take 10).length ≤ 10 ∧
      (k + 1 < (compatibilities.length + 9) / 10 →
        ((compatibilities.drop (10 * k)).take 10).length = 10)) ∧
    (setCompatibility fuel compatibilities conn).issued.flatten = compatibilities := by
  have hex : execChunks conn (chunksOf compatibilities) 0 = (chunksOf compatibilities, none) := by
    apply execChunks_all_ok
    intro j hj c hc
    rw [chunksOf_length] at hj
    rw [chunksOf_getElem? compatibilities j hj] at hc
    simp only [Option.some.injEq] at hc
    subst hc
    simpa using hok j hj
  rw [setCompatibility_eq fuel compatibilities conn hfuel, hex]
  refine ⟨rfl, chunksOf_length compatibilities, ?_, chunksOf_flatten compatibilities⟩
  intro k hk
  have hlen := chunkAt_length compatibilities k
  unfold chunkAt at hlen
  refine ⟨chunksOf_getElem? compatibilities k hk, hlen, ?_, ?_, ?_⟩
  · rw [hlen]; omega
  · rw [hlen]; omega
  · intro hk1
    rw [hlen]; omega

/-- C7 on 25 results (inserts of 10, 10 and 5 rows) and on none (no insert). -/
theorem C7_chunked_inserts_witness :
    ((setCompatibility 25 sample25 sampleConn).issued.map List.length = [10, 10, 5] ∧
     (setCompatibility 25 sample25 sampleConn).issued.flatten = sample25) ∧
    ((setCompatibility 10 [] sampleConn).outcome = .success ∧
     (setCompatibility 10 [] sampleConn).issued.length = 0) :=
  ⟨⟨by decide,
    (C7_chunked_inserts 25 sample25 sampleConn (by decide) (fun _ _ => rfl)).2.2.2⟩,
   ⟨(C7_chunked_inserts 10 [] sampleConn (by decide) (fun _ _ => rfl)).1,
    (C7_chunked_inserts 10 [] sampleConn (by decide) (fun _ _ => rfl)).2.1⟩⟩

/-- C8: when the insert of chunk `k` is the first to fail, `setCompatibility`
returns its error after issuing exactly the inserts of chunks `0` to `k`, in
order, each once; no insert is issued for a later chunk and none is repeated
or undone. -/
theorem C8_fail_fast (fuel : Nat) (compatibilities : List userCompatability) (conn : Conn)
    (k : Nat) (err : PgError)
    (hfuel : 10 ≤ fuel ∧ compatibilities.length ≤ fuel)
    (hk : k < (compatibilities.length + 9) / 10)
    (hbefore : ∀ j, j < k →
      conn.insertCompatibilities j (chunkAt compatibilities j) = .ok ())
    (hfail : conn.insertCompatibilities k (chunkAt compatibilities k) = .error err) :
    (setCompatibility fuel compatibilities conn).outcome = .failure err ∧
    (setCompatibility fuel compatibilities conn).issued.length = k + 1 ∧
    ∀ j, j ≤ k →
      (setCompatibility fuel compatibilities conn).issued[j]?
        = some ((compatibilities.drop (10 * j)).take 10) := by
  have hex : execChunks conn (chunksOf compatibilities) 0
      = ((chunksOf compatibilities).take (k + 1), some err) := by
    apply execChunks_first_fail conn (chunksOf compatibilities) 0 k (chunkAt compatibilities k) err
      (chunksOf_getElem? compatibilities k hk)
    · intro j hj c hc
      rw [chunksOf_getElem? compatibilities j (by omega)] at hc
      simp only [Option.some.injEq] at hc
      subst hc
      simpa using hbefore j hj
    · simpa using hfail
  rw [setCompatibility_eq fuel compatibilities conn hfuel, hex]
  refine ⟨rfl, ?_, ?_⟩
  · simp only [List.length_take, chunksOf_length]
    omega
  · intro j hj
    simp only []
    rw [List.getElem?_take_of_lt (by omega), chunksOf_getElem? compatibilities j (by omega)]
    rfl

/-- C8 on 25 results with the second insert failing: two inserts issued, the
third chunk never sent. -/
theorem C8_fail_fast_witness :
    (setCompatibility 25 sample25 failSecondInsert).outcome = .failure "insert failed" ∧
    (setCompatibility 25 sample25 failSecondInsert).issued.length = 1 + 1 ∧
    ∀ j, j ≤ 1 →
      (setCompatibility 25 sample25 failSecondInsert).issued[j]?
        = some ((sample25.drop (10 * j)).take 10) :=
  C8_fail_fast 25 sample25 failSecondInsert 1 "insert failed" (by decide) (by decide)
    (fun j hj => by
      have : j = 0 := by omega
      subst this
      rfl)
    rfl

/-- C9 fails at cursor 0: it is not the sentinel -1, yet the page holds rows
created at 9 and 3. -/
theorem C9_counterexample :
    ¬ ∀ createdAt : Int, createdAt ≠ -1 → ∀ page,
      findInterestedIds "male" "female" createdAt 0 (tableConn sampleTable) = .ok page →
      ∀ r ∈ page, r.created_at < createdAt := by
  intro h
  have h0 := h 0 (by decide) [⟨"u2", 9⟩, ⟨"u3", 3⟩] (by decide) ⟨"u2", 9⟩ (by decide)
  exact absurd h0 (by decide)

/-- C9 as amended: for filter values free of the quote character, on any
state of `users`, a page request with a cursor greater than 0 returns what the
unbounded request returns on the rows created strictly before the cursor, so
every row of the page is created strictly before it; with a cursor of 0 or
less, the sentinel -1 included, it returns what the request with the sentinel
returns: no bound is applied. -/
theorem C9_cursor_bound (gender interested_in : String) (createdAt : Int) (nth : Nat)
    (users : List UserRow) (_hg : quoteFree gender) (_hi : quoteFree interested_in) :
    (0 < createdAt →
      findInterestedIds gender interested_in createdAt nth (tableConn users)
        = findInterestedIds gender interested_in (-1) nth
            (tableConn (users.filter (fun u => decide (u.created_at < createdAt)))) ∧
      ∀ r ∈ (findInterestedIdsQuery gender interested_in createdAt).eval users,
        r.created_at < createdAt) ∧
    (createdAt ≤ 0 →
      findInterestedIds gender interested_in createdAt nth (tableConn users)
        = findInterestedIds gender interested_in (-1) nth (tableConn users) ∧
      (findInterestedIdsQuery gender interested_in createdAt).whereCreatedAt = none) := by
  refine ⟨fun hc => ⟨?_, ?_⟩, fun hc => ⟨?_, ?_⟩⟩
  · rw [findInterestedIds_tableConn, findInterestedIds_tableConn, eval_bounded _ _ _ hc]
  · exact created_at_lt_of_mem_eval gender interested_in createdAt hc users
  · rw [findInterestedIds_tableConn, findInterestedIds_tableConn, eval_unbounded _ _ _ hc]
  · have : ¬ createdAt > 0 := by omega
    simp [findInterestedIdsQuery, this]

/-- C9 as amended, on the sample rows and quote-free filters: cursor 4 leaves
the row created at 3 (every row of the page is created before 4), cursor 0
leaves both rows as the sentinel does. -/
theorem C9_cursor_bound_witness :
    (quoteFree "male" ∧ quoteFree "female") ∧
    findInterestedIds "male" "female" 4 0 (tableConn sampleTable) = .ok [⟨"u3", 3⟩] ∧
    (∀ r ∈ (findInterestedIdsQuery "male" "female" 4).eval sampleTable, r.created_at < 4) ∧
    findInterestedIds "male" "female" 0 0 (tableConn sampleTable)
      = findInterestedIds "male" "female" (-1) 0 (tableConn sampleTable) ∧
    findInterestedIds "male" "female" (-1) 0 (tableConn sampleTable)
      = .ok [⟨"u2", 9⟩, ⟨"u3", 3⟩] :=
  ⟨⟨by decide, by decide⟩, by decide,
   ((C9_cursor_bound "male" "female" 4 0 sampleTable (by decide) (by decide)).1
      (by decide)).2,
   ((C9_cursor_bound "male" "female" 0 0 sampleTable (by decide) (by decide)).2
      (by decide)).1,
   by decide⟩

/-- C10 fails on the sample rows: with gender filter `male` and interest
filter `female` the page holds `u2` and `u3`, whose gender is `female` and
interest `male`, and not `u1`, the only row whose gender is `male` and whose
interest is `female`. -/
theorem C10_counterexample :
    ¬ ∀ page, findInterestedIds "male" "female" (-1) 0 (tableConn sampleTable) = .ok page →
      ∀ u ∈ sampleTable,
        ((u.gender = "male" ∧ u.interested_in = "female") ↔
          (⟨u.id, u.created_at⟩ : userInterest) ∈ page) := by
  intro h
  have h1 := h [⟨"u2", 9⟩, ⟨"u3", 3⟩] (by decide) ⟨"u1", "male", "female", 5⟩ (by decide)
  exact absurd (h1.mp (by decide)) (by decide)

/-- C10 as amended: for filter values free of the quote character, the page
is made of the rows whose `interested_in` column equals the first argument and
whose `gender` column equals the second (and, for a cursor above 0, created
strictly before it): it holds 100 of them or all of them, in descending order
of `created_at`, and no row left out is newer than a row of the page. -/
theorem C10_page_selection (gender interested_in : String) (createdAt : Int) (nth : Nat)
    (users : List UserRow) (_hg : quoteFree gender) (_hi : quoteFree interested_in) :
    ∃ page rest,
      findInterestedIds gender interested_in createdAt nth (tableConn users) = .ok page ∧
      List.Perm (page ++ rest)
        ((users.filter (fun u => decide (u.interested_in = gender ∧ u.gender = interested_in ∧
            (0 < createdAt → u.created_at < createdAt)))).map
          (fun u => (⟨u.id, u.created_at⟩ : userInterest))) ∧
      page.length = min 100 (page ++ rest).length ∧
      page.Pairwise (fun a b => a.created_at ≥ b.created_at) ∧
      ∀ a ∈ page, ∀ b ∈ rest, a.created_at ≥ b.created_at := by
  have htot : IsTotal UserRow (fun a b => a.created_at ≥ b.created_at) :=
    ⟨fun a b => le_total _ _⟩
  have htr : IsTrans UserRow (fun a b => a.created_at ≥ b.created_at) :=
    ⟨fun a b c hab hbc => le_trans hbc hab⟩
  have hsel : (findInterestedIdsQuery gender interested_in createdAt).selects
      = (fun u => decide (u.interested_in = gender ∧ u.gender = interested_in ∧
            (0 < createdAt → u.created_at < createdAt))) := by
    funext u
    rw [Bool.eq_iff_iff]
    by_cases hc : 0 < createdAt
    · simp [findInterestedIdsQuery, UsersQuery.selects, hc, and_assoc]
    · have : ¬ createdAt > 0 := hc
      simp [findInterestedIdsQuery, UsersQuery.selects, this, hc]
  rw [findInterestedIds_tableConn]
  unfold UsersQuery.eval
  rw [hsel]
  generalize users.filter _ = M
  have hsorted := List.sorted_insertionSort (fun a b : UserRow => a.created_at ≥ b.created_at) M
  have hperm := List.perm_insertionSort (fun a b : UserRow => a.created_at ≥ b.created_at) M
  generalize List.insertionSort (fun a b : UserRow => a.created_at ≥ b.created_at) M = S
    at hsorted hperm
  have hsplit : S.take 100 ++ S.drop 100 = S := List.take_append_drop 100 S
  refine ⟨(S.take 100).map (fun u => ⟨u.id, u.created_at⟩),
    (S.drop 100).map (fun u => ⟨u.id, u.created_at⟩), rfl, ?_, ?_, ?_, ?_⟩
  · rw [← List.map_append, hsplit]
    exact hperm.map _
  · rw [← List.map_append, hsplit]
    simp
  · rw [List.pairwise_map]
    exact List.Pairwise.sublist (List.take_sublist 100 S) hsorted
  · intro a ha b hb
    rw [List.mem_map] at ha hb
    obtain ⟨x, hx, rfl⟩ := ha
    obtain ⟨y, hy, rfl⟩ := hb
    have hs : (S.take 100 ++ S.drop 100).Pairwise (fun a b => a.created_at ≥ b.created_at) := by
      rw [hsplit]; exact hsorted
    exact (List.pairwise_append.mp hs).2.2 x hx y hy

/-- C10 as amended, on the sample rows with the quote-free filters `male` and
`female`: the page is `u2`, `u3`, the rows interested in `male` whose gender is
`female`, newest first. -/
theorem C10_page_selection_witness :
    (quoteFree "male" ∧ quoteFree "female") ∧
    findInterestedIds "male" "female" (-1) 0 (tableConn sampleTable)
      = .ok [⟨"u2", 9⟩, ⟨"u3", 3⟩] ∧
    ∃ page rest,
      findInterestedIds "male" "female" (-1) 0 (tableConn sampleTable) = .ok page ∧
      List.Perm (page ++ rest)
        ((sampleTable.filter (fun u => decide (u.interested_in = "male" ∧ u.gender = "female" ∧
            (0 < (-1 : Int) → u.created_at < -1)))).map
          (fun u => (⟨u.id, u.created_at⟩ : userInterest))) ∧
      page.length = min 100 (page ++ rest).length ∧
      page.Pairwise (fun a b => a.created_at ≥ b.created_at) ∧
      ∀ a ∈ page, ∀ b ∈ rest, a.created_at ≥ b.created_at :=
  ⟨⟨by decide, by decide⟩, by decide,
   C10_page_selection "male" "female" (-1) 0 sampleTable (by decide) (by decide)⟩

/-- C11: a non-empty mapping scored against itself gives 100. -/
theorem C11_identical_is_100 (A : GoMap) (hA : A.entries ≠ []) :
    getCompatibilityPercentBetween A A = .ok 100 := by
  rw [getCompatibilityPercentBetween_eq, matchCount_self]
  have hpos : 0 < A.entries.length := List.length_pos.mpr hA
  rw [Nat.mul_div_cancel _ hpos]
  rfl

/-- C11 on the three-question sample. -/
theorem C11_identical_is_100_witness :
    threeAnswers.entries ≠ [] ∧ getCompatibilityPercentBetween threeAnswers threeAnswers = .ok 100 :=
  ⟨by decide, C11_identical_is_100 threeAnswers (by decide)⟩

/-- C12: with an empty subject mapping the scorer returns 0 for every
candidate; it returns a value and not the division fault that `percentage`
raises for `total = 0`, because the count is 0 and the call is not made. -/
theorem C12_empty_subject_is_0 (B : GoMap) :
    getCompatibilityPercentBetween ∅ B = .ok 0 ∧
    countMatches ∅ B = 0 ∧
    ∀ count, percentage count (∅ : GoMap).len = .error .divideByZero := by
  refine ⟨?_, rfl, fun count => rfl⟩
  rw [getCompatibilityPercentBetween_eq]
  simp [matchCount]

/-- C13: candidates that answer every question of the subject alike (the same
questions of the subject present, with the same answers) get the same score;
in particular an answer added to the candidate for a question the subject did
not answer leaves the score unchanged. -/
theorem C13_only_subject_questions_count (A B B' : GoMap) :
    ((∀ q, q ∈ A.keys → B.lookup q = B'.lookup q) →
      getCompatibilityPercentBetween A B = getCompatibilityPercentBetween A B') ∧
    (∀ q v : String, q ∉ A.keys →
      getCompatibilityPercentBetween A (B.set q v) = getCompatibilityPercentBetween A B) := by
  refine ⟨fun h => ?_, fun q v hq => ?_⟩
  · rw [getCompatibilityPercentBetween_eq, getCompatibilityPercentBetween_eq,
      matchCount_congr A B B' h]
  · rw [getCompatibilityPercentBetween_eq, getCompatibilityPercentBetween_eq,
      matchCount_congr A (B.set q v) B]
    intro q1 hq1
    have hne : q1 ≠ q := fun h => hq (h ▸ hq1)
    exact AList.lookup_insert_ne hne

/-- C13 on the sample: an answer to `q9`, which the subject did not answer,
keeps the score at 33. -/
theorem C13_only_subject_questions_count_witness :
    "q9" ∉ threeAnswers.keys ∧
    getCompatibilityPercentBetween threeAnswers (oneAgreeing.set "q9" "a9")
      = getCompatibilityPercentBetween threeAnswers oneAgreeing ∧
    getCompatibilityPercentBetween threeAnswers oneAgreeing = .ok 33 :=
  ⟨by decide,
   (C13_only_subject_questions_count threeAnswers oneAgreeing oneAgreeing).2 "q9" "a9"
     (by decide),
   by decide⟩

/-- C14: the score depends on the direction: three answers against one
agreeing answer give 33, the one answer against the three gives 100. -/
theorem C14_directional :
    ∃ A B : GoMap, getCompatibilityPercentBetween A B ≠ getCompatibilityPercentBetween B A :=
  ⟨threeAnswers, oneAgreeing, by decide⟩

/-- C20: the scorer returns the floor of `100 * c / |A|` for a non-empty
subject mapping and 0 for an empty one, where `c` counts the entries of `A`
whose answer equals what `B[question]` reads (`""` for an absent question); the
value handed to the ceiling is already that integer, and it never exceeds
100, so neither the ceiling nor the clamp changes it. -/
theorem C20_floor_value (A B : GoMap) :
    getCompatibilityPercentBetween A B
      = .ok (if A.entries.length = 0 then 0
             else ⌊((100 * matchCount A B : Nat) : ℚ) / (A.entries.length : ℚ)⌋) ∧
    countMatches A B = (matchCount A B : Int) ∧
    (A.entries.length ≠ 0 →
      percentage (countMatches A B) A.len
        = .ok ((⌊((100 * matchCount A B : Nat) : ℚ) / (A.entries.length : ℚ)⌋ : Int) : ℚ) ∧
      ⌈((⌊((100 * matchCount A B : Nat) : ℚ) / (A.entries.length : ℚ)⌋ : Int) : ℚ)⌉
        = ⌊((100 * matchCount A B : Nat) : ℚ) / (A.entries.length : ℚ)⌋ ∧
      ⌊((100 * matchCount A B : Nat) : ℚ) / (A.entries.length : ℚ)⌋ ≤ 100) := by
  have hfloor : ⌊((100 * matchCount A B : Nat) : ℚ) / (A.entries.length : ℚ)⌋
      = ((100 * matchCount A B / A.entries.length : Nat) : Int) :=
    Rat.floor_natCast_div_natCast _ _
  refine ⟨?_, countMatches_eq A B, fun hne => ⟨?_, Int.ceil_intCast _, ?_⟩⟩
  · rw [getCompatibilityPercentBetween_eq, hfloor]
    split_ifs with h0
    · simp [h0]
    · rfl
  · have hlen : A.len ≠ 0 := by
      unfold GoMap.len
      exact_mod_cast hne
    have htd : (100 * (matchCount A B : Int)).tdiv A.len
        = ((100 * matchCount A B / A.entries.length : Nat) : Int) := by
      unfold GoMap.len
      rw [Int.tdiv_eq_ediv (by positivity) (by positivity)]
      push_cast
      rfl
    rw [hfloor, countMatches_eq]
    simp only [percentage, if_neg hlen, htd]
  · rw [hfloor]
    have hle := matchCount_le A B
    have : 100 * matchCount A B / A.entries.length ≤ 100 := by
      apply Nat.div_le_of_le_mul
      nlinarith
    exact_mod_cast this

/-- C20 on the sample of one agreeing answer in three. -/
theorem C20_floor_value_witness :
    threeAnswers.entries.length ≠ 0 ∧
    percentage (countMatches threeAnswers oneAgreeing) threeAnswers.len
        = .ok ((⌊((100 * matchCount threeAnswers oneAgreeing : Nat) : ℚ)
            / (threeAnswers.entries.length : ℚ)⌋ : Int) : ℚ) :=
  ⟨by decide, ((C20_floor_value threeAnswers oneAgreeing).2.2 (by decide)).1⟩

/-- C15: when the profile and the answers load and the first page is empty,
every run with fuel for one iteration consists of the two loads and one page
request, carrying the sentinel; it makes no bulk fetch and returns the empty
sequence. -/
theorem C15_empty_first_page (fuel : Nat) (userId gender interested_in : String) (conn : Conn)
    (userOneAnswers : GoMap)
    (hinfo : getUserInfoById userId conn = .ok (gender, interested_in))
    (hans : findAllAnswersForUser userId conn = .ok userOneAnswers)
    (hpage : findInterestedIds gender interested_in (-1) 0 conn = .ok [])
    (hfuel : 1 ≤ fuel) :
    getCompatibility fuel userId conn
      = ⟨[.getUserInfoById userId (.ok (gender, interested_in)),
          .findAllAnswersForUser userId (.ok userOneAnswers),
          .findInterestedIds gender interested_in (-1) (.ok [])], .returned []⟩ ∧
    (pageRequests (getCompatibility fuel userId conn).trace).length = 1 ∧
    bulkFetches (getCompatibility fuel userId conn).trace = [] := by
  obtain ⟨fuel, rfl⟩ : ∃ n, fuel = n + 1 := ⟨fuel - 1, by omega⟩
  have h : getCompatibility (fuel + 1) userId conn
      = ⟨[.getUserInfoById userId (.ok (gender, interested_in)),
          .findAllAnswersForUser userId (.ok userOneAnswers),
          .findInterestedIds gender interested_in (-1) (.ok [])], .returned []⟩ := by
    rw [getCompatibility_scan (fuel + 1) userId gender interested_in conn userOneAnswers
      hinfo hans,
      scanLoop_page_empty userId gender interested_in userOneAnswers conn fuel 0 (-1) 0 [] hpage]
  rw [h]
  exact ⟨rfl, rfl, rfl⟩

/-- C15 on a connection without candidates. -/
theorem C15_empty_first_page_witness :
    (getCompatibility 1 "s" emptySource).outcome = .returned [] ∧
    (pageRequests (getCompatibility 1 "s" emptySource).trace).length = 1 ∧
    bulkFetches (getCompatibility 1 "s" emptySource).trace = [] :=
  ⟨by rw [(C15_empty_first_page 1 "s" "m" "f" emptySource (GoMap.ofPairs [("q1", "a1")])
      (by decide) rfl (by decide) (by decide)).1],
   (C15_empty_first_page 1 "s" "m" "f" emptySource (GoMap.ofPairs [("q1", "a1")])
      (by decide) rfl (by decide) (by decide)).2⟩

/-- C17: in a run whose profile and answers load, over a source that serves
non-empty pages and then an empty page, or non-empty pages holding at least
100 qualifying candidates, the sequence returned is the first 100 elements of
the qualifying pairs of the pages taken in page order, each candidate scored
against the subject with the map built from its page's records. -/
theorem C17_results_in_page_order (fuel : Nat) (userId gender interested_in : String)
    (conn : Conn) (userOneAnswers : GoMap) (pages : List Page)
    (hinfo : getUserInfoById userId conn = .ok (gender, interested_in))
    (hans : findAllAnswersForUser userId conn = .ok userOneAnswers)
    (hsrc : ServesThenEmpty conn gender interested_in pages 0 (-1) ∨
      (Serves conn gender interested_in pages 0 (-1) ∧
        100 ≤ (qualifiersOfPages userId userOneAnswers pages).length))
    (hfuel : pages.length < fuel) :
    (getCompatibility fuel userId conn).outcome
      = .returned ((qualifiersOfPages userId userOneAnswers pages).take 100) := by
  rw [getCompatibility_scan fuel userId gender interested_in conn userOneAnswers hinfo hans]
  exact scanLoop_result userId gender interested_in userOneAnswers conn pages fuel hsrc hfuel

set_option maxRecDepth 100000 in
/-- C17 on 150 qualifying candidates in two pages followed by an empty page:
the first 100 are returned. -/
theorem C17_results_in_page_order_witness :
    ServesThenEmpty sampleConn "m" "f" samplePages 0 (-1) ∧
    (getCompatibility 3 "s" sampleConn).outcome
      = .returned ((qualifiersOfPages "s" (GoMap.ofPairs [("q1", "a1")]) samplePages).take 100) :=
  ⟨⟨by decide, by decide, by decide, by decide, by decide, by decide, rfl⟩,
   C17_results_in_page_order 3 "s" "m" "f" sampleConn (GoMap.ofPairs [("q1", "a1")]) samplePages
    (by decide) rfl
    (Or.inl ⟨by decide, by decide, by decide, by decide, by decide, by decide, rfl⟩)
    (by decide)⟩

/-- C16: the subject is not excluded. In a run whose profile and answers load,
over a source as in C17, let the subject's identifier stand on a served page
at a place before which fewer than 100 candidates qualify, and let the records
of that page give the subject the answers loaded as its own, at least one:
the sequence returned holds the pair of the subject with itself at 100. -/
theorem C16_subject_not_excluded (fuel : Nat) (userId gender interested_in : String)
    (conn : Conn) (userOneAnswers : GoMap) (pages ps1 ps2 : List Page)
    (users1 users2 : List userInterest) (created_at : Int) (usersAnswers : List userAnswer)
    (hinfo : getUserInfoById userId conn = .ok (gender, interested_in))
    (hans : findAllAnswersForUser userId conn = .ok userOneAnswers)
    (hne : userOneAnswers.entries ≠ [])
    (hpages : pages = ps1 ++ (users1 ++ ⟨userId, created_at⟩ :: users2, usersAnswers) :: ps2)
    (hsame : ∀ q, (answersOfUser usersAnswers userId).lookup q = userOneAnswers.lookup q)
    (hbefore : (qualifiersOfPages userId userOneAnswers ps1).length
      + (qualifiers userId userOneAnswers usersAnswers (users1.map fun e => e.id)).length < 100)
    (hsrc : ServesThenEmpty conn gender interested_in pages 0 (-1) ∨
      (Serves conn gender interested_in pages 0 (-1) ∧
        100 ≤ (qualifiersOfPages userId userOneAnswers pages).length))
    (hfuel : pages.length < fuel) :
    ∃ rs, (getCompatibility fuel userId conn).outcome = .returned rs ∧
      (⟨userId, userId, 100⟩ : userCompatability) ∈ rs := by
  refine ⟨_, by
    rw [getCompatibility_scan fuel userId gender interested_in conn userOneAnswers hinfo hans]
    exact scanLoop_result userId gender interested_in userOneAnswers conn pages fuel hsrc hfuel,
    ?_⟩
  have hself : qualifiers userId userOneAnswers usersAnswers [userId]
      = [⟨userId, userId, 100⟩] := by
    have hval : scoreValue userOneAnswers (answersOfUser usersAnswers userId) = 100 := by
      rw [← scoreValue_self userOneAnswers hne]
      unfold scoreValue
      rw [matchCount_congr userOneAnswers (answersOfUser usersAnswers userId) userOneAnswers
        (fun q _ => hsame q)]
    rw [qualifiers_cons, hval, qualifiers_nil]
    rfl
  have hsplit : qualifiersOfPages userId userOneAnswers pages
      = (qualifiersOfPages userId userOneAnswers ps1
          ++ qualifiers userId userOneAnswers usersAnswers (users1.map fun e => e.id))
        ++ (⟨userId, userId, 100⟩
          :: (qualifiers userId userOneAnswers usersAnswers (users2.map fun e => e.id)
              ++ qualifiersOfPages userId userOneAnswers ps2)) := by
    rw [hpages, qualifiersOfPages_append]
    simp only [qualifiersOfPages, List.map_append, List.map_cons]
    rw [qualifiers_append, ← List.singleton_append (l := List.map _ users2), qualifiers_append,
      hself]
    simp
  rw [hsplit, List.take_append_eq_append_take]
  apply List.mem_append_right
  have hk : 100 - (qualifiersOfPages userId userOneAnswers ps1
      ++ qualifiers userId userOneAnswers usersAnswers (users1.map fun e => e.id)).length
      = (99 - (qualifiersOfPages userId userOneAnswers ps1
      ++ qualifiers userId userOneAnswers usersAnswers (users1.map fun e => e.id)).length) + 1 := by
    simp only [List.length_append]
    omega
  rw [hk, List.take_succ_cons]
  exact List.mem_cons_self _ _

/-- C16 on a page where the subject `s` follows another candidate. -/
theorem C16_subject_not_excluded_witness :
    ∃ rs, (getCompatibility 2 "s" selfSource).outcome = .returned rs ∧
      (⟨"s", "s", 100⟩ : userCompatability) ∈ rs :=
  C16_subject_not_excluded 2 "s" "m" "f" selfSource (GoMap.ofPairs [("q1", "a1")])
    [selfPage] [] [] [⟨"c1", 9⟩] [] 8 selfPage.2
    (by decide) rfl (by decide) rfl (fun _ => rfl) (by decide)
    (Or.inl ⟨by decide, by decide, by decide, rfl⟩) (by decide)

/-- C18: in every run the first page request carries the sentinel -1, and
every later page request carries the creation timestamp of the last entry of
the page the request before it returned, whatever was scored or appended in
between. -/
theorem C18_cursor_chain (fuel : Nat) (userId : String) (conn : Conn) :
    (∀ c r, (pageRequests (getCompatibility fuel userId conn).trace)[0]? = some (c, r) →
      c = -1) ∧
    (∀ k c r c1 r1,
      (pageRequests (getCompatibility fuel userId conn).trace)[k]? = some (c, r) →
      (pageRequests (getCompatibility fuel userId conn).trace)[k + 1]? = some (c1, r1) →
      ∃ users last, r = .ok users ∧ users.getLast? = some last ∧ c1 = last.created_at) := by
  have key : CursorChain (-1) (pageRequests (getCompatibility fuel userId conn).trace) := by
    cases h : getUserInfoById userId conn with
    | error err =>
      rw [getCompatibility_info_error fuel userId conn err h]
      simp [CursorChain]
    | ok gi =>
      obtain ⟨g, i⟩ := gi
      cases h2 : findAllAnswersForUser userId conn with
      | error err =>
        rw [getCompatibility_answers_error fuel userId g i conn err h h2]
        simp [CursorChain]
      | ok A =>
        rw [getCompatibility_scan fuel userId g i conn A h h2]
        simpa using scanLoop_chain userId g i A conn fuel 0 (-1) 0 []
  exact ⟨chain_head _ _ key, fun k => chain_step k _ _ key⟩

/-- C18 on the run over the sample page followed by an empty page: two
requests, with cursor -1 and with the timestamp 8 closing the first page. -/
theorem C18_cursor_chain_witness :
    (pageRequests (getCompatibility 3 "s" selfSource).trace).map Prod.fst = [-1, 8] ∧
    ∃ users last,
      (Except.ok selfPage.1 : Except PgError (List userInterest)) = .ok users ∧
      users.getLast? = some last ∧ (8 : Int) = last.created_at :=
  ⟨by decide,
   (C18_cursor_chain 3 "s" selfSource).2 0 (-1) (.ok selfPage.1) 8 (.ok []) (by decide)
     (by decide)⟩

/-- C19: whatever the storage calls answer, a run that returns gives at most
100 entries; its last event tells how it ended: the append that reached the
cap, and then the entries are exactly 100; an empty page, and then they are
fewer than 100; or a failed call, and then there is none. -/
theorem C19_at_most_100 (fuel : Nat) (userId : String) (conn : Conn)
    (rs : List userCompatability)
    (h : (getCompatibility fuel userId conn).outcome = .returned rs) :
    rs.length ≤ 100 ∧
    ∃ e, (getCompatibility fuel userId conn).trace.getLast? = some e ∧
      (((∃ c, e = .append c) ∧ rs.length = 100) ∨
       ((∃ g i c, e = .findInterestedIds g i c (.ok [])) ∧ rs.length < 100) ∨
       (e.failed = true ∧ rs = [])) := by
  have key : ∃ e, (getCompatibility fuel userId conn).trace.getLast? = some e ∧
      (((∃ c, e = .append c) ∧ rs.length = 100) ∨
       ((∃ g i c, e = .findInterestedIds g i c (.ok [])) ∧ rs.length < 100) ∨
       (e.failed = true ∧ rs = [])) := by
    cases h1 : getUserInfoById userId conn with
    | error err =>
      rw [getCompatibility_info_error fuel userId conn err h1] at h ⊢
      simp only [Outcome.returned.injEq] at h
      exact ⟨_, rfl, Or.inr (Or.inr ⟨rfl, h.symm⟩)⟩
    | ok gi =>
      obtain ⟨g, i⟩ := gi
      cases h2 : findAllAnswersForUser userId conn with
      | error err =>
        rw [getCompatibility_answers_error fuel userId g i conn err h1 h2] at h ⊢
        simp only [Outcome.returned.injEq] at h
        exact ⟨_, rfl, Or.inr (Or.inr ⟨rfl, h.symm⟩)⟩
      | ok A =>
        rw [getCompatibility_scan fuel userId g i conn A h1 h2] at h ⊢
        obtain ⟨e, he, hcase⟩ :=
          scanLoop_end userId g i A conn fuel 0 (-1) 0 [] rs (by norm_num) h
        refine ⟨e, ?_, ?_⟩
        · exact getLast?_append_some
            [.getUserInfoById userId (.ok (g, i)), .findAllAnswersForUser userId (.ok A)] _ e he
        · rcases hcase with ⟨a, b, c⟩ | ⟨⟨c0, a⟩, b, c⟩ | a
          · refine Or.inl ⟨a, ?_⟩
            rw [b]
            simp only [List.nil_append]
            omega
          · refine Or.inr (Or.inl ⟨⟨g, i, c0, a⟩, ?_⟩)
            rw [b]
            simp only [List.nil_append]
            omega
          · exact Or.inr (Or.inr a)
  refine ⟨?_, key⟩
  obtain ⟨e, _, hcase⟩ := key
  rcases hcase with ⟨_, a⟩ | ⟨_, a⟩ | ⟨_, a⟩
  · omega
  · omega
  · simp [a]

set_option maxRecDepth 100000 in
/-- C19 on 150 qualifying candidates: the run returns 100 entries. -/
theorem C19_at_most_100_witness :
    (getCompatibility 3 "s" sampleConn).outcome
      = .returned ((qualifiersOfPages "s" (GoMap.ofPairs [("q1", "a1")]) samplePages).take 100) ∧
    ((qualifiersOfPages "s" (GoMap.ofPairs [("q1", "a1")]) samplePages).take 100).length ≤ 100 :=
  ⟨by decide, (C19_at_most_100 3 "s" sampleConn _ (by decide)).1⟩

end Compat
